import Mathlib

/-!
Formalisation of the Mollusk DAO (a membership-governed treasury with a
proposal lifecycle state machine and a multi-token internal ledger).

The repository ships the Hardhat test suite for the `Mollusk` contract and the
command-line tasks that drive it; the Solidity contract itself is not part of
the source tree.  The state machine below is therefore modelled from the
specification of the contract, and wherever the test suite pins down a
behaviour (revert messages, boundary behaviour at the token caps, the
tribute-of-zero bypass, ragequit arithmetic) the model follows the tests.
Machine integers are modelled as `Nat`; token amounts in the claims are far
below 2^256 so modular wraparound never occurs, while subtraction sites are
guarded exactly where the contract guards them.
-/

namespace Mollusk

/-- Accounts are addresses; we model them as naturals. -/
abbrev Address := Nat

/-- Token contracts are identified by their address. -/
abbrev Token := Nat

/-- The guild-bank pseudo-account (address 0x…dead in the tests). -/
def GUILD : Address := 0xdead

/-- The escrow pseudo-account (address 0x…beef in the tests). -/
def ESCROW : Address := 0xbeef

/-- Error taxonomy of refused state transitions (spec section 7 plus the
revert messages appearing in the test suite). -/
inductive Err where
  | unauthorized
  | notWhitelisted
  | alreadyWhitelisted
  | noBalanceToCollect
  | noGuildBankBalance
  | capacityExceededWhitelist
  | capacityExceededGuildBank
  | insufficientBalance
  | insufficientShares
  | insufficientLoot
  | arityMismatch
  | alreadyVoted
  | alreadyProcessed
  | alreadySponsored
  | notYetVotable
  | votingPeriodExpired
  | notYetProcessable
  | invalidVote
  | invalidProposal
  | notStandardProposal
  | notWhitelistProposal
deriving Repr, DecidableEq

/-- Deployment configuration (spec sections 2 and 4; the constructor arguments
in the test suite). -/
structure Config where
  depositToken : Token
  proposalDeposit : Nat
  processingReward : Nat
  dilutionBound : Nat
  votingPeriods : Nat
  gracePeriods : Nat
  maxWhitelist : Nat
  maxGuildBank : Nat
deriving Repr, DecidableEq

/-- A member record: share count and loot count (spec section 3). -/
structure Member where
  shares : Nat
  loot : Nat
deriving Repr, DecidableEq

/-- A proposal record: immutable terms captured at submission plus the mutable
voting/flag state (spec section 3).  Whitelist proposals store the token to
whitelist in `tributeToken`, mirroring the contract interface exercised by the
tests. -/
structure Proposal where
  applicant : Address
  proposer : Address
  sponsor : Address
  sharesRequested : Nat
  lootRequested : Nat
  tributeOffered : Nat
  tributeToken : Token
  paymentRequested : Nat
  paymentToken : Token
  startingPeriod : Nat
  yesVotes : Nat
  noVotes : Nat
  maxTotalSharesAndLootAtYesVote : Nat
  sponsored : Bool
  processed : Bool
  didPass : Bool
  flagWhitelist : Bool
  votesByMember : List (Address × Nat)
deriving Repr, DecidableEq

/-- The whole DAO state: token registry, internal ledger (including the
running per-token total mirroring the TOTAL pseudo-account), membership
registry and proposal registry (spec sections 2 and 3). -/
structure State where
  cfg : Config
  approvedTokens : List Token
  tokenWhitelist : Token → Bool
  userTokenBalances : Address → Token → Nat
  totalBalance : Token → Nat
  members : Address → Option Member
  totalShares : Nat
  totalLoot : Nat
  totalGuildBankTokens : Nat
  proposals : List Proposal
  proposalQueue : List Nat

/-- Point update of a two-argument balance table. -/
def setBal (f : Address → Token → Nat) (a : Address) (t : Token) (v : Nat) :
    Address → Token → Nat :=
  fun a' t' => if a' = a ∧ t' = t then v else f a' t'

/-- Point update of the member table. -/
def setMem (f : Address → Option Member) (a : Address) (m : Member) :
    Address → Option Member :=
  fun a' => if a' = a then some m else f a'

@[simp] theorem setBal_same (f : Address → Token → Nat) (a : Address) (t : Token) (v : Nat) :
    setBal f a t v a t = v := by
  simp [setBal]

theorem setBal_other (f : Address → Token → Nat) (a : Address) (t : Token) (v : Nat)
    (a' : Address) (t' : Token) (h : ¬(a' = a ∧ t' = t)) :
    setBal f a t v a' t' = f a' t' := by
  simp [setBal, h]

@[simp] theorem setMem_same (f : Address → Option Member) (a : Address) (m : Member) :
    setMem f a m a = some m := by
  simp [setMem]

theorem setMem_other (f : Address → Option Member) (a : Address) (m : Member)
    (a' : Address) (h : a' ≠ a) : setMem f a m a' = f a' := by
  simp [setMem, h]

/-- Modelled from the spec: `InternalLedger.credit` — credits `v` of token `t`
to account `a` and maintains the per-token running total (the contract's
unsafeAddToBalance, which also bumps the TOTAL pseudo-account). -/
def State.addToBalance (s : State) (a : Address) (t : Token) (v : Nat) : State :=
  { s with
    userTokenBalances := setBal s.userTokenBalances a t (s.userTokenBalances a t + v)
    totalBalance := fun t' => if t' = t then s.totalBalance t' + v else s.totalBalance t' }

/-- Modelled from the spec: `InternalLedger.debit` — debits `v` of token `t`
from account `a` and maintains the per-token running total (the contract's
unsafeSubtractFromBalance).  Callers guard `v` against the balance. -/
def State.subtractFromBalance (s : State) (a : Address) (t : Token) (v : Nat) : State :=
  { s with
    userTokenBalances := setBal s.userTokenBalances a t (s.userTokenBalances a t - v)
    totalBalance := fun t' => if t' = t then s.totalBalance t' - v else s.totalBalance t' }

/-- Modelled from the spec: a cross-account movement is one debit plus one
credit, logically atomic (spec section 4.2). -/
def State.internalTransfer (s : State) (srcA dstA : Address) (t : Token) (v : Nat) : State :=
  (s.subtractFromBalance srcA t v).addToBalance dstA t v

/-- Membership test used by delegate-gated operations: the caller resolves to
a member record with voting shares (the `onlyDelegate` modifier; delegate keys
equal the member address throughout the modelled scenarios). -/
def State.isActiveMember (s : State) (a : Address) : Bool :=
  match s.members a with
  | some m => decide (0 < m.shares)
  | none => false

/-- The proposal stored at a given index of the proposal registry. -/
def State.propAt (s : State) (pid : Nat) : Option Proposal :=
  s.proposals.get? pid

/-- Modelled from the spec: the watermark used when sequencing sponsorships —
the starting period of the most recently queued proposal, 0 for an empty
queue (spec section 9, "last assigned starting period"). -/
def State.lastQueuedStartingPeriod (s : State) : Nat :=
  match s.proposalQueue.getLast? with
  | none => 0
  | some pid =>
    match s.propAt pid with
    | some p => p.startingPeriod
    | none => 0

section PrimitiveLemmas

variable (s : State) (a srcA dstA : Address) (t : Token) (v : Nat)

@[simp] theorem addToBalance_cfg : (s.addToBalance a t v).cfg = s.cfg := rfl
@[simp] theorem addToBalance_approved : (s.addToBalance a t v).approvedTokens = s.approvedTokens := rfl
@[simp] theorem addToBalance_gbt : (s.addToBalance a t v).totalGuildBankTokens = s.totalGuildBankTokens := rfl
@[simp] theorem addToBalance_members : (s.addToBalance a t v).members = s.members := rfl
@[simp] theorem addToBalance_shares : (s.addToBalance a t v).totalShares = s.totalShares := rfl
@[simp] theorem addToBalance_loot : (s.addToBalance a t v).totalLoot = s.totalLoot := rfl
@[simp] theorem addToBalance_proposals : (s.addToBalance a t v).proposals = s.proposals := rfl
@[simp] theorem addToBalance_queue : (s.addToBalance a t v).proposalQueue = s.proposalQueue := rfl
@[simp] theorem addToBalance_whitelist : (s.addToBalance a t v).tokenWhitelist = s.tokenWhitelist := rfl

@[simp] theorem subtractFromBalance_cfg : (s.subtractFromBalance a t v).cfg = s.cfg := rfl
@[simp] theorem subtractFromBalance_approved : (s.subtractFromBalance a t v).approvedTokens = s.approvedTokens := rfl
@[simp] theorem subtractFromBalance_gbt : (s.subtractFromBalance a t v).totalGuildBankTokens = s.totalGuildBankTokens := rfl
@[simp] theorem subtractFromBalance_members : (s.subtractFromBalance a t v).members = s.members := rfl
@[simp] theorem subtractFromBalance_shares : (s.subtractFromBalance a t v).totalShares = s.totalShares := rfl
@[simp] theorem subtractFromBalance_loot : (s.subtractFromBalance a t v).totalLoot = s.totalLoot := rfl
@[simp] theorem subtractFromBalance_proposals : (s.subtractFromBalance a t v).proposals = s.proposals := rfl
@[simp] theorem subtractFromBalance_queue : (s.subtractFromBalance a t v).proposalQueue = s.proposalQueue := rfl
@[simp] theorem subtractFromBalance_whitelist : (s.subtractFromBalance a t v).tokenWhitelist = s.tokenWhitelist := rfl

@[simp] theorem internalTransfer_cfg : (s.internalTransfer srcA dstA t v).cfg = s.cfg := rfl
@[simp] theorem internalTransfer_approved : (s.internalTransfer srcA dstA t v).approvedTokens = s.approvedTokens := rfl
@[simp] theorem internalTransfer_gbt : (s.internalTransfer srcA dstA t v).totalGuildBankTokens = s.totalGuildBankTokens := rfl
@[simp] theorem internalTransfer_members : (s.internalTransfer srcA dstA t v).members = s.members := rfl
@[simp] theorem internalTransfer_shares : (s.internalTransfer srcA dstA t v).totalShares = s.totalShares := rfl
@[simp] theorem internalTransfer_loot : (s.internalTransfer srcA dstA t v).totalLoot = s.totalLoot := rfl
@[simp] theorem internalTransfer_proposals : (s.internalTransfer srcA dstA t v).proposals = s.proposals := rfl
@[simp] theorem internalTransfer_queue : (s.internalTransfer srcA dstA t v).proposalQueue = s.proposalQueue := rfl
@[simp] theorem internalTransfer_whitelist : (s.internalTransfer srcA dstA t v).tokenWhitelist = s.tokenWhitelist := rfl

theorem addToBalance_bal_same :
    (s.addToBalance a t v).userTokenBalances a t = s.userTokenBalances a t + v := by
  simp [State.addToBalance]

theorem addToBalance_bal_other (a' : Address) (t' : Token) (h : ¬(a' = a ∧ t' = t)) :
    (s.addToBalance a t v).userTokenBalances a' t' = s.userTokenBalances a' t' := by
  simp only [State.addToBalance]
  exact setBal_other _ _ _ _ _ _ h

theorem subtractFromBalance_bal_same :
    (s.subtractFromBalance a t v).userTokenBalances a t = s.userTokenBalances a t - v := by
  simp [State.subtractFromBalance]

theorem subtractFromBalance_bal_other (a' : Address) (t' : Token) (h : ¬(a' = a ∧ t' = t)) :
    (s.subtractFromBalance a t v).userTokenBalances a' t' = s.userTokenBalances a' t' := by
  simp only [State.subtractFromBalance]
  exact setBal_other _ _ _ _ _ _ h

theorem internalTransfer_bal_src (hne : dstA ≠ srcA) :
    (s.internalTransfer srcA dstA t v).userTokenBalances srcA t = s.userTokenBalances srcA t - v := by
  rw [State.internalTransfer]
  rw [addToBalance_bal_other _ _ _ _ _ _ (by intro hc; exact hne.symm hc.1)]
  exact subtractFromBalance_bal_same s srcA t v

theorem internalTransfer_bal_dst (hne : dstA ≠ srcA) :
    (s.internalTransfer srcA dstA t v).userTokenBalances dstA t = s.userTokenBalances dstA t + v := by
  rw [State.internalTransfer, addToBalance_bal_same]
  rw [subtractFromBalance_bal_other _ _ _ _ _ _ (by intro hc; exact hne hc.1)]

theorem internalTransfer_bal_other (a' : Address) (t' : Token)
    (h1 : ¬(a' = srcA ∧ t' = t)) (h2 : ¬(a' = dstA ∧ t' = t)) :
    (s.internalTransfer srcA dstA t v).userTokenBalances a' t' = s.userTokenBalances a' t' := by
  rw [State.internalTransfer]
  rw [addToBalance_bal_other _ _ _ _ _ _ h2]
  exact subtractFromBalance_bal_other _ _ _ _ _ _ h1

end PrimitiveLemmas

/-- Modelled from the spec: `GovernanceEngine.submit` for ordinary (tribute /
payment) proposals — Mollusk.sol is not in the source tree.  Validates the
whitelist requirement for a nonzero tribute and the guild-bank-token capacity
for a tribute in a token not currently held by GUILD; on success pulls the
tribute into ESCROW and appends the proposal, returning its index (spec
section 4.1; tribute of zero never contests capacity, as the test suite
exercises at the cap). -/
def submitProposal (s : State) (proposer applicant : Address)
    (sharesRequested lootRequested tributeOffered : Nat) (tributeToken : Token)
    (paymentRequested : Nat) (paymentToken : Token) : Except Err (State × Nat) :=
  if 0 < tributeOffered ∧ s.tokenWhitelist tributeToken = false then
    .error .notWhitelisted
  else if 0 < tributeOffered ∧ s.userTokenBalances GUILD tributeToken = 0 ∧
      s.cfg.maxGuildBank ≤ s.totalGuildBankTokens then
    .error .capacityExceededGuildBank
  else
    let s1 := s.addToBalance ESCROW tributeToken tributeOffered
    let p : Proposal :=
      { applicant := applicant, proposer := proposer, sponsor := 0
        sharesRequested := sharesRequested, lootRequested := lootRequested
        tributeOffered := tributeOffered, tributeToken := tributeToken
        paymentRequested := paymentRequested, paymentToken := paymentToken
        startingPeriod := 0, yesVotes := 0, noVotes := 0
        maxTotalSharesAndLootAtYesVote := 0
        sponsored := false, processed := false, didPass := false
        flagWhitelist := false, votesByMember := [] }
    .ok ({ s1 with proposals := s1.proposals ++ [p] }, s.proposals.length)

/-- Modelled from the spec: `GovernanceEngine.submit` for whitelist-kind
proposals — Mollusk.sol is not in the source tree.  Requires the token not to
be whitelisted already and the whitelist count to be below capacity W, else
CapacityExceeded(whitelist) (spec section 4.1; the revert message appears in
the test suite).  The token to whitelist travels in `tributeToken`. -/
def submitWhitelistProposal (s : State) (proposer : Address) (tokenToWhitelist : Token) :
    Except Err (State × Nat) :=
  if s.tokenWhitelist tokenToWhitelist = true then
    .error .alreadyWhitelisted
  else if s.cfg.maxWhitelist ≤ s.approvedTokens.length then
    .error .capacityExceededWhitelist
  else
    let p : Proposal :=
      { applicant := 0, proposer := proposer, sponsor := 0
        sharesRequested := 0, lootRequested := 0
        tributeOffered := 0, tributeToken := tokenToWhitelist
        paymentRequested := 0, paymentToken := 0
        startingPeriod := 0, yesVotes := 0, noVotes := 0
        maxTotalSharesAndLootAtYesVote := 0
        sponsored := false, processed := false, didPass := false
        flagWhitelist := true, votesByMember := [] }
    .ok ({ s with proposals := s.proposals ++ [p] }, s.proposals.length)

/-- Modelled from the spec: `GovernanceEngine.sponsor` — Mollusk.sol is not in
the source tree.  Caller must be a member; capacity constraints are re-checked
at sponsor time; the fixed proposal deposit is pulled into ESCROW; the
proposal enters the queue with
startingPeriod = max(currentPeriod, lastQueuedStartingPeriod) + 1
(spec section 4.1). -/
def sponsorProposal (s : State) (sponsorA : Address) (now : Nat) (pid : Nat) :
    Except Err State :=
  if s.isActiveMember sponsorA = false then .error .unauthorized
  else
    match s.propAt pid with
    | none => .error .invalidProposal
    | some p =>
      if p.sponsored = true then .error .alreadySponsored
      else if p.flagWhitelist = true ∧ s.cfg.maxWhitelist ≤ s.approvedTokens.length then
        .error .capacityExceededWhitelist
      else if 0 < p.tributeOffered ∧ s.userTokenBalances GUILD p.tributeToken = 0 ∧
          s.cfg.maxGuildBank ≤ s.totalGuildBankTokens then
        .error .capacityExceededGuildBank
      else
        let s1 := s.addToBalance ESCROW s.cfg.depositToken s.cfg.proposalDeposit
        let sp := max now s.lastQueuedStartingPeriod + 1
        let p' := { p with sponsored := true, sponsor := sponsorA, startingPeriod := sp }
        .ok { s1 with
              proposals := s1.proposals.set pid p'
              proposalQueue := s1.proposalQueue ++ [pid] }

/-- Modelled from the spec: `GovernanceEngine.submitVote` — Mollusk.sol is not
in the source tree.  `qIndex` indexes the proposal queue.  The integer choice
1 is a yes vote and 2 a no vote (the encoding the test suite and the tasks
use); anything else is refused.  Voting is allowed only inside the voting
window, at most once per member; a yes vote updates the dilution high-water
mark (spec section 4.1). -/
def submitVote (s : State) (voter : Address) (now : Nat) (qIndex : Nat) (uintVote : Nat) :
    Except Err State :=
  match s.members voter with
  | none => .error .unauthorized
  | some m =>
    if m.shares = 0 then .error .unauthorized
    else
      match s.proposalQueue.get? qIndex with
      | none => .error .invalidProposal
      | some pid =>
        match s.propAt pid with
        | none => .error .invalidProposal
        | some p =>
          if uintVote = 0 ∨ 3 ≤ uintVote then .error .invalidVote
          else if now < p.startingPeriod then .error .notYetVotable
          else if p.startingPeriod + s.cfg.votingPeriods ≤ now then .error .votingPeriodExpired
          else if (p.votesByMember.lookup voter).isSome then .error .alreadyVoted
          else
            let p' :=
              if uintVote = 1 then
                { p with
                  yesVotes := p.yesVotes + m.shares
                  maxTotalSharesAndLootAtYesVote :=
                    max p.maxTotalSharesAndLootAtYesVote (s.totalShares + s.totalLoot)
                  votesByMember := (voter, uintVote) :: p.votesByMember }
              else
                { p with
                  noVotes := p.noVotes + m.shares
                  votesByMember := (voter, uintVote) :: p.votesByMember }
            .ok { s with proposals := s.proposals.set pid p' }

/-- Modelled from the spec: outcome of an ordinary proposal at processing
time.  Passing needs more yes than no votes and the dilution bound; the
proposal is forced to fail when the guild bank cannot honour the payment or
when the tribute would push the guild-bank token diversity past capacity G
(the test suite shows the capacity case resolves to a failed proposal rather
than a revert). -/
def standardDidPass (s : State) (p : Proposal) : Bool :=
  decide (p.noVotes < p.yesVotes) &&
  decide (s.totalShares + s.totalLoot ≤ s.cfg.dilutionBound * p.maxTotalSharesAndLootAtYesVote) &&
  decide (p.paymentRequested ≤ s.userTokenBalances GUILD p.paymentToken) &&
  !(decide (0 < p.tributeOffered) && decide (s.userTokenBalances GUILD p.tributeToken = 0) &&
    decide (s.cfg.maxGuildBank ≤ s.totalGuildBankTokens))

/-- Modelled from the spec: granting shares and loot to the applicant of a
passed proposal, creating the member record on first grant (spec section
4.1). -/
def grantMembership (s : State) (a : Address) (sh lo : Nat) : State :=
  let m : Member :=
    match s.members a with
    | some m0 => { shares := m0.shares + sh, loot := m0.loot + lo }
    | none => { shares := sh, loot := lo }
  { s with
    members := setMem s.members a m
    totalShares := s.totalShares + sh
    totalLoot := s.totalLoot + lo }

/-- Modelled from the spec: the effects of a passed ordinary proposal — grant
shares/loot, bump the guild-bank-token diversity counter when the tribute
introduces a new nonzero guild-held token, move the tribute from ESCROW to
GUILD and pay the applicant from GUILD (spec section 4.1). -/
def applyPass (s : State) (p : Proposal) : State :=
  let s1 := grantMembership s p.applicant p.sharesRequested p.lootRequested
  let s2 :=
    if 0 < p.tributeOffered ∧ s1.userTokenBalances GUILD p.tributeToken = 0 then
      { s1 with totalGuildBankTokens := s1.totalGuildBankTokens + 1 }
    else s1
  let s3 := s2.internalTransfer ESCROW GUILD p.tributeToken p.tributeOffered
  s3.internalTransfer GUILD p.applicant p.paymentToken p.paymentRequested

/-- Modelled from the spec: the effects of a failed ordinary proposal — the
tribute is returned from ESCROW to its original contributor (spec section
4.1). -/
def applyFail (s : State) (p : Proposal) : State :=
  s.internalTransfer ESCROW p.proposer p.tributeToken p.tributeOffered

/-- Modelled from the spec: deposit repayment at processing — the processing
reward moves from ESCROW to the processor, the rest of the deposit from ESCROW
back to the sponsor (spec section 4.1). -/
def returnDeposit (s : State) (sponsorA processorA : Address) : State :=
  let s1 := s.internalTransfer ESCROW processorA s.cfg.depositToken s.cfg.processingReward
  s1.internalTransfer ESCROW sponsorA s.cfg.depositToken
    (s.cfg.proposalDeposit - s.cfg.processingReward)

/-- Modelled from the spec: `GovernanceEngine.process` for ordinary proposals
— Mollusk.sol is not in the source tree.  `qIndex` indexes the proposal
queue.  Allowed only after the voting and grace windows and only once; applies
the passed or failed effects, repays the deposit net of the processing reward
and marks the proposal processed (spec section 4.1; the at-capacity and
insufficient-payment situations resolve the proposal as failed, which is what
the test suite checks). -/
def processProposal (s : State) (processorA : Address) (now : Nat) (qIndex : Nat) :
    Except Err State :=
  match s.proposalQueue.get? qIndex with
  | none => .error .invalidProposal
  | some pid =>
    match s.propAt pid with
    | none => .error .invalidProposal
    | some p =>
      if p.flagWhitelist = true then .error .notStandardProposal
      else if now < p.startingPeriod + s.cfg.votingPeriods + s.cfg.gracePeriods then
        .error .notYetProcessable
      else if p.processed = true then .error .alreadyProcessed
      else
        let pass := standardDidPass s p
        let s1 := if pass = true then applyPass s p else applyFail s p
        let s2 := returnDeposit s1 p.sponsor processorA
        .ok { s2 with proposals := s2.proposals.set pid { p with processed := true, didPass := pass } }

/-- Modelled from the spec: outcome of a whitelist proposal at processing
time; it fails (rather than reverting) when the whitelist is already at
capacity W, as the test suite checks. -/
def whitelistDidPass (s : State) (p : Proposal) : Bool :=
  decide (p.noVotes < p.yesVotes) &&
  decide (s.totalShares + s.totalLoot ≤ s.cfg.dilutionBound * p.maxTotalSharesAndLootAtYesVote) &&
  decide (s.approvedTokens.length < s.cfg.maxWhitelist)

/-- Modelled from the spec: `GovernanceEngine.process` for whitelist-kind
proposals — Mollusk.sol is not in the source tree.  On success the token is
added to the whitelist registry; the deposit is repaid either way (spec
section 4.1). -/
def processWhitelistProposal (s : State) (processorA : Address) (now : Nat) (qIndex : Nat) :
    Except Err State :=
  match s.proposalQueue.get? qIndex with
  | none => .error .invalidProposal
  | some pid =>
    match s.propAt pid with
    | none => .error .invalidProposal
    | some p =>
      if p.flagWhitelist = false then .error .notWhitelistProposal
      else if now < p.startingPeriod + s.cfg.votingPeriods + s.cfg.gracePeriods then
        .error .notYetProcessable
      else if p.processed = true then .error .alreadyProcessed
      else
        let pass := whitelistDidPass s p
        let s1 :=
          if pass = true then
            { s with
              tokenWhitelist := fun tk => if tk = p.tributeToken then true else s.tokenWhitelist tk
              approvedTokens := s.approvedTokens ++ [p.tributeToken] }
          else s
        let s2 := returnDeposit s1 p.sponsor processorA
        .ok { s2 with proposals := s2.proposals.set pid { p with processed := true, didPass := pass } }

/-- Modelled from the spec: the per-token payout pass of ragequit — for each
approved token, move floor(guildBalance * burned / initialTotal) from GUILD to
the departing member (spec section 4.3). -/
def ragequitLoop (memberA : Address) (b t0 : Nat) (toks : List Token) (s : State) : State :=
  match toks with
  | [] => s
  | tk :: rest =>
    ragequitLoop memberA b t0 rest
      (s.internalTransfer GUILD memberA tk (s.userTokenBalances GUILD tk * b / t0))

/-- Modelled from the spec: `ExitEngine.ragequit` — Mollusk.sol is not in the
source tree.  The caller must be a member holding at least the shares and
loot being burned; the burn happens against the member record and the global
totals, and each approved token pays out the floor pro-rata share computed
against the totals before the burn (spec section 4.3). -/
def ragequit (s : State) (memberA : Address) (sharesToBurn lootToBurn : Nat) :
    Except Err State :=
  match s.members memberA with
  | none => .error .unauthorized
  | some m =>
    if m.shares = 0 ∧ m.loot = 0 then .error .unauthorized
    else if m.shares < sharesToBurn then .error .insufficientShares
    else if m.loot < lootToBurn then .error .insufficientLoot
    else
      let initialTotal := s.totalShares + s.totalLoot
      let s1 :=
        { s with
          members := setMem s.members memberA
            { shares := m.shares - sharesToBurn, loot := m.loot - lootToBurn }
          totalShares := s.totalShares - sharesToBurn
          totalLoot := s.totalLoot - lootToBurn }
      .ok (ragequitLoop memberA (sharesToBurn + lootToBurn) initialTotal s.approvedTokens s1)

/-- Modelled from the spec: the sequential withdrawal pass of
`ExitEngine.withdrawBalances` — each (token, amount) entry is resolved in
order against the balance remaining after the earlier entries; with `useMax`
the full remaining balance is withdrawn regardless of the supplied amount
(spec section 4.3). -/
def withdrawLoop (caller : Address) (useMax : Bool) :
    State → List (Token × Nat) → Except Err State
  | s, [] => .ok s
  | s, (tk, amt) :: rest =>
    let w := if useMax then s.userTokenBalances caller tk else amt
    if s.userTokenBalances caller tk < w then .error .insufficientBalance
    else withdrawLoop caller useMax (s.subtractFromBalance caller tk w) rest

/-- Modelled from the spec: `ExitEngine.withdrawBalances` — Mollusk.sol is not
in the source tree.  The token and amount arrays must have equal length, else
ArityMismatch; then the entries are withdrawn sequentially (spec section
4.3). -/
def withdrawBalances (s : State) (caller : Address) (tokens : List Token)
    (amounts : List Nat) (useMax : Bool) : Except Err State :=
  if tokens.length ≠ amounts.length then .error .arityMismatch
  else withdrawLoop caller useMax s (tokens.zip amounts)

/-- Modelled from the spec: `collectTokens` — Mollusk.sol is not in the source
tree.  Callable only by a member; collects the externally-held balance in
excess of the internally tracked total into GUILD.  The excess must be
strictly positive, the token whitelisted, and — as the test suite pins down
with the revert message about a non-zero guild bank balance — GUILD must
already hold the token (spec section 4.4 together with the collectTokens
tests). -/
def collectTokens (s : State) (caller : Address) (token : Token) (externalBalance : Nat) :
    Except Err State :=
  if s.isActiveMember caller = false then .error .unauthorized
  else
    let amountToCollect := externalBalance - s.totalBalance token
    if amountToCollect = 0 then .error .noBalanceToCollect
    else if s.tokenWhitelist token = false then .error .notWhitelisted
    else if s.userTokenBalances GUILD token = 0 then .error .noGuildBankBalance
    else .ok (s.addToBalance GUILD token amountToCollect)

/-- ASCII lowercase of a character, as the JavaScript toLowerCase the
vote-submission task applies to its input. -/
def lowerChar (c : Char) : Char :=
  if 'A' ≤ c ∧ c ≤ 'Z' then Char.ofNat (c.toNat + 32) else c

/-- ASCII lowercase of a string. -/
def lowerAscii (s : String) : String :=
  String.mk (s.data.map lowerChar)

/-- The vote-string handling of the mollusk-submit-vote task
(src/scripts/mollusk-tasks.js): inputs whose lowercase form is neither
"yes" nor "no" are rejected before submitVote is called; otherwise the
lowercase "yes" becomes choice 1 and everything else (the lowercase "no")
becomes choice 2. -/
def voteStringToNumber (vote : String) : Option Nat :=
  if lowerAscii vote ≠ "yes" ∧ lowerAscii vote ≠ "no" then none
  else some (if lowerAscii vote = "yes" then 1 else 2)

section RegistryPreservation

/-- The three registry quantities the capacity invariant talks about. -/
def regTriple (s : State) : Config × Nat × Nat :=
  (s.cfg, s.totalGuildBankTokens, s.approvedTokens.length)

@[simp] theorem grantMembership_cfg (s : State) (a : Address) (sh lo : Nat) :
    (grantMembership s a sh lo).cfg = s.cfg := rfl

@[simp] theorem grantMembership_gbt (s : State) (a : Address) (sh lo : Nat) :
    (grantMembership s a sh lo).totalGuildBankTokens = s.totalGuildBankTokens := rfl

@[simp] theorem grantMembership_approved (s : State) (a : Address) (sh lo : Nat) :
    (grantMembership s a sh lo).approvedTokens = s.approvedTokens := rfl

@[simp] theorem grantMembership_bal (s : State) (a : Address) (sh lo : Nat) :
    (grantMembership s a sh lo).userTokenBalances = s.userTokenBalances := rfl

@[simp] theorem returnDeposit_cfg (s : State) (x y : Address) :
    (returnDeposit s x y).cfg = s.cfg := rfl

@[simp] theorem returnDeposit_gbt (s : State) (x y : Address) :
    (returnDeposit s x y).totalGuildBankTokens = s.totalGuildBankTokens := rfl

@[simp] theorem returnDeposit_approved (s : State) (x y : Address) :
    (returnDeposit s x y).approvedTokens = s.approvedTokens := rfl

@[simp] theorem returnDeposit_proposals (s : State) (x y : Address) :
    (returnDeposit s x y).proposals = s.proposals := rfl

@[simp] theorem returnDeposit_queue (s : State) (x y : Address) :
    (returnDeposit s x y).proposalQueue = s.proposalQueue := rfl

@[simp] theorem applyPass_cfg (s : State) (p : Proposal) :
    (applyPass s p).cfg = s.cfg := by
  simp only [applyPass]
  split <;> rfl

@[simp] theorem applyPass_approved (s : State) (p : Proposal) :
    (applyPass s p).approvedTokens = s.approvedTokens := by
  simp only [applyPass]
  split <;> rfl

@[simp] theorem applyPass_proposals (s : State) (p : Proposal) :
    (applyPass s p).proposals = s.proposals := by
  simp only [applyPass]
  split <;> rfl

@[simp] theorem applyPass_queue (s : State) (p : Proposal) :
    (applyPass s p).proposalQueue = s.proposalQueue := by
  simp only [applyPass]
  split <;> rfl

@[simp] theorem applyFail_cfg (s : State) (p : Proposal) :
    (applyFail s p).cfg = s.cfg := rfl

@[simp] theorem applyFail_gbt (s : State) (p : Proposal) :
    (applyFail s p).totalGuildBankTokens = s.totalGuildBankTokens := rfl

@[simp] theorem applyFail_approved (s : State) (p : Proposal) :
    (applyFail s p).approvedTokens = s.approvedTokens := rfl

@[simp] theorem applyFail_proposals (s : State) (p : Proposal) :
    (applyFail s p).proposals = s.proposals := rfl

@[simp] theorem applyFail_queue (s : State) (p : Proposal) :
    (applyFail s p).proposalQueue = s.proposalQueue := rfl

/-- A passed proposal only bumps the diversity counter when it was strictly
below capacity, so the counter stays within capacity. -/
theorem applyPass_gbt_le (s : State) (p : Proposal)
    (hpass : standardDidPass s p = true)
    (hle : s.totalGuildBankTokens ≤ s.cfg.maxGuildBank) :
    (applyPass s p).totalGuildBankTokens ≤ s.cfg.maxGuildBank := by
  simp only [applyPass]
  split
  case isTrue h =>
    have hnew : 0 < p.tributeOffered ∧ s.userTokenBalances GUILD p.tributeToken = 0 := h
    have hlt : s.totalGuildBankTokens < s.cfg.maxGuildBank := by
      unfold standardDidPass at hpass
      simp only [Bool.and_eq_true, Bool.not_eq_true', Bool.and_eq_false_iff,
        decide_eq_true_eq, decide_eq_false_iff_not] at hpass
      rcases hpass.2 with h1 | h2
      · rcases h1 with h1 | h1
        · exact absurd hnew.1 h1
        · exact absurd hnew.2 h1
      · omega
    simpa using hlt
  case isFalse h =>
    simpa using hle

theorem ragequitLoop_cfg (memberA : Address) (b t0 : Nat) (toks : List Token) (s : State) :
    (ragequitLoop memberA b t0 toks s).cfg = s.cfg := by
  induction toks generalizing s with
  | nil => rfl
  | cons tk rest ih => simpa [ragequitLoop] using ih _

theorem ragequitLoop_gbt (memberA : Address) (b t0 : Nat) (toks : List Token) (s : State) :
    (ragequitLoop memberA b t0 toks s).totalGuildBankTokens = s.totalGuildBankTokens := by
  induction toks generalizing s with
  | nil => rfl
  | cons tk rest ih => simpa [ragequitLoop] using ih _

theorem ragequitLoop_approved (memberA : Address) (b t0 : Nat) (toks : List Token) (s : State) :
    (ragequitLoop memberA b t0 toks s).approvedTokens = s.approvedTokens := by
  induction toks generalizing s with
  | nil => rfl
  | cons tk rest ih => simpa [ragequitLoop] using ih _

theorem ragequitLoop_members (memberA : Address) (b t0 : Nat) (toks : List Token) (s : State) :
    (ragequitLoop memberA b t0 toks s).members = s.members := by
  induction toks generalizing s with
  | nil => rfl
  | cons tk rest ih => simpa [ragequitLoop] using ih _

theorem ragequitLoop_shares (memberA : Address) (b t0 : Nat) (toks : List Token) (s : State) :
    (ragequitLoop memberA b t0 toks s).totalShares = s.totalShares := by
  induction toks generalizing s with
  | nil => rfl
  | cons tk rest ih => simpa [ragequitLoop] using ih _

theorem ragequitLoop_totalLoot (memberA : Address) (b t0 : Nat) (toks : List Token) (s : State) :
    (ragequitLoop memberA b t0 toks s).totalLoot = s.totalLoot := by
  induction toks generalizing s with
  | nil => rfl
  | cons tk rest ih => simpa [ragequitLoop] using ih _

theorem withdrawLoop_ok_cfg (caller : Address) (useMax : Bool) (l : List (Token × Nat))
    (s s' : State) (h : withdrawLoop caller useMax s l = .ok s') :
    s'.cfg = s.cfg ∧ s'.totalGuildBankTokens = s.totalGuildBankTokens ∧
      s'.approvedTokens = s.approvedTokens := by
  induction l generalizing s with
  | nil =>
    simp only [withdrawLoop] at h
    cases h
    exact ⟨rfl, rfl, rfl⟩
  | cons hd rest ih =>
    obtain ⟨tk, amt⟩ := hd
    simp only [withdrawLoop] at h
    by_cases hc : s.userTokenBalances caller tk <
        (if useMax then s.userTokenBalances caller tk else amt)
    · rw [if_pos hc] at h
      cases h
    · rw [if_neg hc] at h
      simpa using ih _ h

end RegistryPreservation

section StepRelation

/-- Modelled from the spec: a single successful state transition of the DAO —
any of the modelled operations returning ok. -/
inductive Step : State → State → Prop where
  | submit (s s' : State) (proposer applicant sh lo tr : Nat) (tt : Token) (pr : Nat)
      (pt : Token) (i : Nat)
      (h : submitProposal s proposer applicant sh lo tr tt pr pt = .ok (s', i)) : Step s s'
  | submitWl (s s' : State) (proposer : Address) (tk : Token) (i : Nat)
      (h : submitWhitelistProposal s proposer tk = .ok (s', i)) : Step s s'
  | sponsor (s s' : State) (a : Address) (now pid : Nat)
      (h : sponsorProposal s a now pid = .ok s') : Step s s'
  | vote (s s' : State) (a : Address) (now qi uv : Nat)
      (h : submitVote s a now qi uv = .ok s') : Step s s'
  | process (s s' : State) (a : Address) (now qi : Nat)
      (h : processProposal s a now qi = .ok s') : Step s s'
  | processWl (s s' : State) (a : Address) (now qi : Nat)
      (h : processWhitelistProposal s a now qi = .ok s') : Step s s'
  | rage (s s' : State) (a : Address) (sb lb : Nat)
      (h : ragequit s a sb lb = .ok s') : Step s s'
  | withdraw (s s' : State) (a : Address) (tks : List Token) (amts : List Nat) (um : Bool)
      (h : withdrawBalances s a tks amts um = .ok s') : Step s s'
  | collect (s s' : State) (a : Address) (tk : Token) (ext : Nat)
      (h : collectTokens s a tk ext = .ok s') : Step s s'

/-- States reachable from a given state by successful transitions. -/
def Reachable (s s' : State) : Prop := Relation.ReflTransGen Step s s'

/-- The capacity invariant: the guild-bank-token diversity counter is within
G and the whitelist size within W, and the configuration is the deployed
one. -/
def CapacityInv (c : Config) (s : State) : Prop :=
  s.cfg = c ∧ s.totalGuildBankTokens ≤ c.maxGuildBank ∧
    s.approvedTokens.length ≤ c.maxWhitelist

theorem step_preserves_capacity (c : Config) (s s' : State)
    (hstep : Step s s') (hinv : CapacityInv c s) : CapacityInv c s' := by
  obtain ⟨hc, hg, hw⟩ := hinv
  cases hstep with
  | submit proposer applicant sh lo tr tt pr pt i h =>
    unfold submitProposal at h
    split at h
    · cases h
    · split at h
      · cases h
      · cases h
        exact ⟨hc, hg, hw⟩
  | submitWl proposer tk i h =>
    unfold submitWhitelistProposal at h
    split at h
    · cases h
    · split at h
      · cases h
      · cases h
        exact ⟨hc, hg, hw⟩
  | sponsor a now pid h =>
    unfold sponsorProposal at h
    split at h
    · cases h
    · split at h
      · cases h
      · split at h
        · cases h
        · split at h
          · cases h
          · split at h
            · cases h
            · cases h
              exact ⟨hc, hg, hw⟩
  | vote a now qi uv h =>
    unfold submitVote at h
    split at h
    · cases h
    · split at h
      · cases h
      · split at h
        · cases h
        · split at h
          · cases h
          · split at h
            · cases h
            · split at h
              · cases h
              · split at h
                · cases h
                · split at h
                  · cases h
                  · cases h
                    exact ⟨hc, hg, hw⟩
  | process a now qi h =>
    unfold processProposal at h
    split at h
    · cases h
    · split at h
      · cases h
      · rename_i p hp
        split at h
        · cases h
        · split at h
          · cases h
          · split at h
            · cases h
            · cases h
              by_cases hpass : standardDidPass s p = true
              · have hgb : (applyPass s p).totalGuildBankTokens ≤ s.cfg.maxGuildBank :=
                  applyPass_gbt_le s p hpass (by rw [hc]; exact hg)
                rw [hc] at hgb
                exact ⟨by simp [hpass, hc], by simpa [hpass] using hgb, by simp [hpass, hw]⟩
              · exact ⟨by simp [hpass, hc], by simpa [hpass] using hg, by simp [hpass, hw]⟩
  | processWl a now qi h =>
    unfold processWhitelistProposal at h
    split at h
    · cases h
    · split at h
      · cases h
      · rename_i p hp
        split at h
        · cases h
        · split at h
          · cases h
          · split at h
            · cases h
            · cases h
              by_cases hpass : whitelistDidPass s p = true
              · have hlt : s.approvedTokens.length < s.cfg.maxWhitelist := by
                  unfold whitelistDidPass at hpass
                  simp only [Bool.and_eq_true, decide_eq_true_eq] at hpass
                  exact hpass.2
                rw [hc] at hlt
                refine ⟨by simp [hpass, hc], by simpa [hpass] using hg, ?_⟩
                simp [hpass]
                omega
              · exact ⟨by simp [hpass, hc], by simpa [hpass] using hg, by simp [hpass, hw]⟩
  | rage a sb lb h =>
    unfold ragequit at h
    split at h
    · cases h
    · split at h
      · cases h
      · split at h
        · cases h
        · split at h
          · cases h
          · cases h
            refine ⟨?_, ?_, ?_⟩
            · rw [ragequitLoop_cfg]; exact hc
            · rw [ragequitLoop_gbt]; simpa using hg
            · rw [ragequitLoop_approved]; simpa using hw
  | withdraw a tks amts um h =>
    unfold withdrawBalances at h
    split at h
    · cases h
    · obtain ⟨h1, h2, h3⟩ := withdrawLoop_ok_cfg _ _ _ _ _ h
      exact ⟨h1 ▸ hc, h2 ▸ hg, h3 ▸ hw⟩
  | collect a tk ext h =>
    simp only [collectTokens] at h
    split at h
    · cases h
    · split at h
      · cases h
      · split at h
        · cases h
        · split at h
          · cases h
          · cases h
            exact ⟨hc, hg, hw⟩

theorem reachable_capacity (c : Config) (s s' : State)
    (hreach : Reachable s s') (hinv : CapacityInv c s) : CapacityInv c s' := by
  induction hreach with
  | refl => exact hinv
  | tail _ hstep ih => exact step_preserves_capacity c _ _ hstep ih

end StepRelation

section RagequitLemmas

/-- The floor pro-rata share never exceeds the balance it is taken from. -/
theorem fairShare_le (bal b t0 : Nat) (hbt : b ≤ t0) : bal * b / t0 ≤ bal := by
  rcases Nat.eq_zero_or_pos t0 with h0 | h0
  · subst h0
    simp [Nat.div_zero]
  · calc bal * b / t0 ≤ bal * t0 / t0 :=
          Nat.div_le_div_right (Nat.mul_le_mul_left bal hbt)
    _ = bal := Nat.mul_div_cancel bal h0

theorem ragequitLoop_bal_not_mem (memberA : Address) (b t0 : Nat) (toks : List Token)
    (s : State) (tk : Token) (htk : tk ∉ toks) (x : Address) :
    (ragequitLoop memberA b t0 toks s).userTokenBalances x tk = s.userTokenBalances x tk := by
  induction toks generalizing s with
  | nil => rfl
  | cons hd rest ih =>
    have hne : tk ≠ hd := fun e => htk (e ▸ List.mem_cons_self hd rest)
    have hrest : tk ∉ rest := fun hm => htk (List.mem_cons_of_mem _ hm)
    simp only [ragequitLoop]
    rw [ih _ hrest]
    exact internalTransfer_bal_other _ _ _ _ _ x tk
      (fun hc => hne hc.2) (fun hc => hne hc.2)

theorem ragequitLoop_bal_mem (memberA : Address) (hmg : memberA ≠ GUILD)
    (b t0 : Nat) (toks : List Token) (s : State) (tk : Token)
    (hnd : toks.Nodup) (htk : tk ∈ toks) :
    (ragequitLoop memberA b t0 toks s).userTokenBalances memberA tk =
      s.userTokenBalances memberA tk + s.userTokenBalances GUILD tk * b / t0 ∧
    (ragequitLoop memberA b t0 toks s).userTokenBalances GUILD tk =
      s.userTokenBalances GUILD tk - s.userTokenBalances GUILD tk * b / t0 := by
  induction toks generalizing s with
  | nil => cases htk
  | cons hd rest ih =>
    rcases List.mem_cons.mp htk with he | hm
    · subst he
      have hrest : tk ∉ rest := (List.nodup_cons.mp hnd).1
      simp only [ragequitLoop]
      rw [ragequitLoop_bal_not_mem _ _ _ _ _ tk hrest memberA,
        ragequitLoop_bal_not_mem _ _ _ _ _ tk hrest GUILD]
      constructor
      · exact internalTransfer_bal_dst s GUILD memberA tk _ hmg
      · exact internalTransfer_bal_src s GUILD memberA tk _ hmg
    · have hne : hd ≠ tk := by
        rintro rfl
        exact (List.nodup_cons.mp hnd).1 hm
      have hnd' : rest.Nodup := (List.nodup_cons.mp hnd).2
      simp only [ragequitLoop]
      have hb1 : (s.internalTransfer GUILD memberA hd
          (s.userTokenBalances GUILD hd * b / t0)).userTokenBalances memberA tk =
          s.userTokenBalances memberA tk :=
        internalTransfer_bal_other _ _ _ _ _ memberA tk
          (fun hc => hne hc.2.symm) (fun hc => hne hc.2.symm)
      have hb2 : (s.internalTransfer GUILD memberA hd
          (s.userTokenBalances GUILD hd * b / t0)).userTokenBalances GUILD tk =
          s.userTokenBalances GUILD tk :=
        internalTransfer_bal_other _ _ _ _ _ GUILD tk
          (fun hc => hne hc.2.symm) (fun hc => hne hc.2.symm)
      obtain ⟨g1, g2⟩ := ih _ hnd' hm
      rw [g1, g2, hb1, hb2]
      exact ⟨rfl, rfl⟩

/-- Successful ragequit reduces to the burn followed by the payout loop. -/
theorem ragequit_ok_spec (s : State) (memberA : Address) (m : Member) (sb lb : Nat)
    (hm : s.members memberA = some m)
    (hnz : ¬(m.shares = 0 ∧ m.loot = 0))
    (hsb : sb ≤ m.shares) (hlb : lb ≤ m.loot) :
    ragequit s memberA sb lb = .ok
      (ragequitLoop memberA (sb + lb) (s.totalShares + s.totalLoot) s.approvedTokens
        { s with
          members := setMem s.members memberA
            { shares := m.shares - sb, loot := m.loot - lb }
          totalShares := s.totalShares - sb
          totalLoot := s.totalLoot - lb }) := by
  unfold ragequit
  rw [hm]
  dsimp only
  rw [if_neg hnz, if_neg (by omega), if_neg (by omega)]

end RagequitLemmas

section WithdrawLemmas

/-- One withdrawal step with `useMax`: the full remaining balance is taken and
the balance check cannot fire. -/
theorem withdrawLoop_cons_true (caller : Address) (s : State) (tk : Token) (amt : Nat)
    (rest : List (Token × Nat)) :
    withdrawLoop caller true s ((tk, amt) :: rest) =
      withdrawLoop caller true
        (s.subtractFromBalance caller tk (s.userTokenBalances caller tk)) rest := by
  show (if s.userTokenBalances caller tk < s.userTokenBalances caller tk then
      (.error .insufficientBalance : Except Err State)
    else withdrawLoop caller true
      (s.subtractFromBalance caller tk (s.userTokenBalances caller tk)) rest) = _
  rw [if_neg (lt_irrefl _)]

/-- One withdrawal step without `useMax`: the requested amount is checked
against the remaining balance. -/
theorem withdrawLoop_cons_false (caller : Address) (s : State) (tk : Token) (amt : Nat)
    (rest : List (Token × Nat)) :
    withdrawLoop caller false s ((tk, amt) :: rest) =
      if s.userTokenBalances caller tk < amt then .error .insufficientBalance
      else withdrawLoop caller false (s.subtractFromBalance caller tk amt) rest := rfl

theorem withdrawLoop_useMax_ok (caller : Address) (l : List (Token × Nat)) (s : State) :
    ∃ s', withdrawLoop caller true s l = .ok s' := by
  induction l generalizing s with
  | nil => exact ⟨s, rfl⟩
  | cons hd rest ih =>
    obtain ⟨tk, amt⟩ := hd
    rw [withdrawLoop_cons_true]
    exact ih _

theorem withdrawLoop_ok_bal_le (caller : Address) (useMax : Bool) (l : List (Token × Nat))
    (s s' : State) (h : withdrawLoop caller useMax s l = .ok s') (tk : Token) :
    s'.userTokenBalances caller tk ≤ s.userTokenBalances caller tk := by
  induction l generalizing s with
  | nil =>
    simp only [withdrawLoop] at h
    cases h
    exact le_refl _
  | cons hd rest ih =>
    obtain ⟨tk', amt⟩ := hd
    have step : ∀ w, withdrawLoop caller useMax (s.subtractFromBalance caller tk' w) rest = .ok s' →
        s'.userTokenBalances caller tk ≤ s.userTokenBalances caller tk := by
      intro w hw
      refine le_trans (ih _ hw) ?_
      by_cases he : caller = caller ∧ tk = tk'
      · rw [State.subtractFromBalance]
        dsimp only
        rw [he.2]
        simp only [setBal_same]
        omega
      · rw [subtractFromBalance_bal_other _ _ _ _ _ _ he]
    cases useMax
    · rw [withdrawLoop_cons_false] at h
      split at h
      · cases h
      · exact step amt h
    · rw [withdrawLoop_cons_true] at h
      exact step _ h

theorem withdrawLoop_useMax_zero (caller : Address) (l : List (Token × Nat))
    (s s' : State) (h : withdrawLoop caller true s l = .ok s') (tk : Token)
    (htk : tk ∈ l.map Prod.fst) : s'.userTokenBalances caller tk = 0 := by
  induction l generalizing s with
  | nil => cases htk
  | cons hd rest ih =>
    obtain ⟨tk', amt⟩ := hd
    rw [withdrawLoop_cons_true] at h
    simp only [List.map_cons, List.mem_cons] at htk
    rcases htk with he | hm
    · have he' : tk = tk' := he
      subst he'
      have hz : (s.subtractFromBalance caller tk
          (s.userTokenBalances caller tk)).userTokenBalances caller tk = 0 := by
        rw [subtractFromBalance_bal_same]
        omega
      have hle := withdrawLoop_ok_bal_le caller true rest _ _ h tk
      omega
    · exact ih _ h hm

theorem withdrawLoop_append_ok (caller : Address) (useMax : Bool)
    (l1 l2 : List (Token × Nat)) (s sm : State)
    (h : withdrawLoop caller useMax s l1 = .ok sm) :
    withdrawLoop caller useMax s (l1 ++ l2) = withdrawLoop caller useMax sm l2 := by
  induction l1 generalizing s with
  | nil =>
    simp only [withdrawLoop] at h
    cases h
    rfl
  | cons hd rest ih =>
    obtain ⟨tk, amt⟩ := hd
    cases useMax
    · rw [withdrawLoop_cons_false] at h
      split at h
      · cases h
      · rename_i hcond
        rw [List.cons_append, withdrawLoop_cons_false, if_neg hcond]
        exact ih _ h
    · rw [withdrawLoop_cons_true] at h
      rw [List.cons_append, withdrawLoop_cons_true]
      exact ih _ h

end WithdrawLemmas

section SponsorLemmas

/-- The starting period recorded for a queued proposal id (0 for a dangling
id, which never occurs in reachable states). -/
def periodOf (s : State) (pid : Nat) : Nat :=
  match s.propAt pid with
  | some p => p.startingPeriod
  | none => 0

/-- The starting periods of the queued proposals in sponsorship order. -/
def queuePeriods (s : State) : List Nat :=
  s.proposalQueue.map (periodOf s)

theorem lastQueued_eq_periodOf (s : State) (pid : Nat)
    (h : s.proposalQueue.getLast? = some pid) :
    s.lastQueuedStartingPeriod = periodOf s pid := by
  unfold State.lastQueuedStartingPeriod periodOf
  rw [h]

theorem queuePeriods_getLast? (s : State) :
    (queuePeriods s).getLast? = s.proposalQueue.getLast?.map (periodOf s) := by
  unfold queuePeriods
  exact List.getLast?_map _ _

/-- Inversion of a successful sponsorship: the proposal existed and was
unsponsored, and the new state queues it with the watermark-based starting
period. -/
theorem sponsorProposal_ok_inv (s : State) (a : Address) (now pid : Nat) (s' : State)
    (h : sponsorProposal s a now pid = .ok s') :
    ∃ p, s.propAt pid = some p ∧ p.sponsored = false ∧
      s'.proposals = s.proposals.set pid
        { p with sponsored := true, sponsor := a
                 startingPeriod := max now s.lastQueuedStartingPeriod + 1 } ∧
      s'.proposalQueue = s.proposalQueue ++ [pid] := by
  unfold sponsorProposal at h
  split at h
  · cases h
  · split at h
    · cases h
    · rename_i p hp
      split at h
      · cases h
      · split at h
        · cases h
        · split at h
          · cases h
          · rename_i hns _ _
            cases h
            refine ⟨p, hp, by simpa using hns, by simp, by simp⟩

theorem propAt_set_self (s : State) (pid : Nat) (p q : Proposal)
    (hp : s.propAt pid = some p) :
    ({ s with proposals := s.proposals.set pid q } : State).propAt pid = some q := by
  unfold State.propAt at hp ⊢
  have hlt : pid < s.proposals.length := (List.get?_eq_some.mp hp).1
  simp [List.get?_eq_getElem?, List.getElem?_set_self, hlt]

theorem propAt_set_ne (s : State) (pid : Nat) (q : Proposal) (j : Nat) (hj : j ≠ pid) :
    ({ s with proposals := s.proposals.set pid q } : State).propAt j = s.propAt j := by
  unfold State.propAt
  simp [List.get?_eq_getElem?, List.getElem?_set_ne (by omega : pid ≠ j)]

end SponsorLemmas

section ProcessLemmas

/-- Inversion of a successful ordinary-proposal processing: which checks must
have passed and what the new state is. -/
theorem processProposal_ok_inv (s : State) (procA : Address) (now qi : Nat) (s' : State)
    (h : processProposal s procA now qi = .ok s') :
    ∃ pid p, s.proposalQueue.get? qi = some pid ∧ s.propAt pid = some p ∧
      p.flagWhitelist = false ∧
      p.startingPeriod + s.cfg.votingPeriods + s.cfg.gracePeriods ≤ now ∧
      p.processed = false ∧
      s' = { returnDeposit
              (if standardDidPass s p = true then applyPass s p else applyFail s p)
              p.sponsor procA with
             proposals :=
              (returnDeposit
                (if standardDidPass s p = true then applyPass s p else applyFail s p)
                p.sponsor procA).proposals.set pid
                { p with processed := true, didPass := standardDidPass s p } } := by
  unfold processProposal at h
  split at h
  · cases h
  · rename_i pid hpid
    split at h
    · cases h
    · rename_i p hp
      split at h
      · cases h
      · split at h
        · cases h
        · split at h
          · cases h
          · rename_i hwl htime hproc
            cases h
            exact ⟨pid, p, hpid, hp, by simpa using hwl, by omega, by simpa using hproc, rfl⟩

/-- Inversion of a successful whitelist-proposal processing. -/
theorem processWhitelistProposal_ok_inv (s : State) (procA : Address) (now qi : Nat)
    (s' : State) (h : processWhitelistProposal s procA now qi = .ok s') :
    ∃ pid p, s.proposalQueue.get? qi = some pid ∧ s.propAt pid = some p ∧
      p.flagWhitelist = true ∧
      p.startingPeriod + s.cfg.votingPeriods + s.cfg.gracePeriods ≤ now ∧
      p.processed = false ∧
      s'.proposals = s.proposals.set pid
          { p with processed := true, didPass := whitelistDidPass s p } ∧
      s'.proposalQueue = s.proposalQueue ∧ s'.cfg = s.cfg := by
  unfold processWhitelistProposal at h
  split at h
  · cases h
  · rename_i pid hpid
    split at h
    · cases h
    · rename_i p hp
      split at h
      · cases h
      · split at h
        · cases h
        · split at h
          · cases h
          · rename_i hwl htime hproc
            cases h
            refine ⟨pid, p, hpid, hp, ?_, by omega, by simpa using hproc, ?_, ?_, ?_⟩
            · revert hwl
              cases p.flagWhitelist <;> simp
            · simp only [returnDeposit_proposals]
              split <;> rfl
            · simp only [returnDeposit_queue]
              split <;> rfl
            · simp only [returnDeposit_cfg]
              split <;> rfl

end ProcessLemmas

section ProcessBalanceLemmas

theorem escrow_ne_guild : ESCROW ≠ GUILD := by decide

theorem applyPass_bal_other (s : State) (p : Proposal) (x : Address) (tk : Token)
    (h1 : x ≠ GUILD) (h2 : x ≠ ESCROW) (h3 : x ≠ p.applicant) :
    (applyPass s p).userTokenBalances x tk = s.userTokenBalances x tk := by
  simp only [applyPass]
  rw [internalTransfer_bal_other _ _ _ _ _ x tk
    (fun hc => h1 hc.1) (fun hc => h3 hc.1)]
  rw [internalTransfer_bal_other _ _ _ _ _ x tk
    (fun hc => h2 hc.1) (fun hc => h1 hc.1)]
  split <;> rfl

theorem applyPass_bal_escrow (s : State) (p : Proposal) (tk : Token)
    (htt : tk ≠ p.tributeToken) (hap : p.applicant ≠ ESCROW) :
    (applyPass s p).userTokenBalances ESCROW tk = s.userTokenBalances ESCROW tk := by
  simp only [applyPass]
  rw [internalTransfer_bal_other _ _ _ _ _ ESCROW tk
    (fun hc => escrow_ne_guild hc.1) (fun hc => hap hc.1.symm)]
  rw [internalTransfer_bal_other _ _ _ _ _ ESCROW tk
    (fun hc => htt hc.2) (fun hc => escrow_ne_guild hc.1)]
  split <;> rfl

theorem applyFail_bal_other (s : State) (p : Proposal) (x : Address) (tk : Token)
    (h2 : x ≠ ESCROW) (h3 : x ≠ p.proposer) :
    (applyFail s p).userTokenBalances x tk = s.userTokenBalances x tk :=
  internalTransfer_bal_other _ _ _ _ _ x tk (fun hc => h2 hc.1) (fun hc => h3 hc.1)

theorem applyFail_bal_escrow (s : State) (p : Proposal) (tk : Token)
    (htt : tk ≠ p.tributeToken) (hpp : p.proposer ≠ ESCROW) :
    (applyFail s p).userTokenBalances ESCROW tk = s.userTokenBalances ESCROW tk :=
  internalTransfer_bal_other _ _ _ _ _ ESCROW tk
    (fun hc => htt hc.2) (fun hc => hpp hc.1.symm)

theorem returnDeposit_bal_sponsor (s : State) (spA prA : Address)
    (hsp : spA ≠ ESCROW) (hne : spA ≠ prA) :
    (returnDeposit s spA prA).userTokenBalances spA s.cfg.depositToken =
      s.userTokenBalances spA s.cfg.depositToken +
        (s.cfg.proposalDeposit - s.cfg.processingReward) := by
  simp only [returnDeposit]
  rw [internalTransfer_bal_dst _ _ _ _ _ hsp]
  rw [internalTransfer_bal_other _ _ _ _ _ spA _
    (fun hc => hsp hc.1) (fun hc => hne hc.1)]

theorem returnDeposit_bal_processor (s : State) (spA prA : Address)
    (hpr : prA ≠ ESCROW) (hne : spA ≠ prA) :
    (returnDeposit s spA prA).userTokenBalances prA s.cfg.depositToken =
      s.userTokenBalances prA s.cfg.depositToken + s.cfg.processingReward := by
  simp only [returnDeposit]
  rw [internalTransfer_bal_other _ _ _ _ _ prA _
    (fun hc => hpr hc.1) (fun hc => hne hc.1.symm)]
  rw [internalTransfer_bal_dst _ _ _ _ _ hpr]

theorem returnDeposit_bal_same_acct (s : State) (spA : Address)
    (hsp : spA ≠ ESCROW) (hr : s.cfg.processingReward ≤ s.cfg.proposalDeposit) :
    (returnDeposit s spA spA).userTokenBalances spA s.cfg.depositToken =
      s.userTokenBalances spA s.cfg.depositToken + s.cfg.proposalDeposit := by
  simp only [returnDeposit]
  rw [internalTransfer_bal_dst _ _ _ _ _ hsp]
  rw [internalTransfer_bal_dst _ _ _ _ _ hsp]
  omega

theorem returnDeposit_bal_escrow (s : State) (spA prA : Address)
    (hsp : spA ≠ ESCROW) (hpr : prA ≠ ESCROW)
    (hd : s.cfg.proposalDeposit ≤ s.userTokenBalances ESCROW s.cfg.depositToken)
    (hr : s.cfg.processingReward ≤ s.cfg.proposalDeposit) :
    (returnDeposit s spA prA).userTokenBalances ESCROW s.cfg.depositToken +
        s.cfg.proposalDeposit =
      s.userTokenBalances ESCROW s.cfg.depositToken := by
  simp only [returnDeposit]
  rw [internalTransfer_bal_src _ _ _ _ _ hsp]
  rw [internalTransfer_bal_src _ _ _ _ _ hpr]
  omega

/-- Forward evaluation of a successful ordinary-proposal processing. -/
theorem processProposal_ok_spec (s : State) (procA : Address) (now qi pid : Nat)
    (p : Proposal)
    (hpid : s.proposalQueue.get? qi = some pid)
    (hp : s.propAt pid = some p)
    (hwl : p.flagWhitelist = false)
    (htime : p.startingPeriod + s.cfg.votingPeriods + s.cfg.gracePeriods ≤ now)
    (hproc : p.processed = false) :
    processProposal s procA now qi = .ok
      { returnDeposit
          (if standardDidPass s p = true then applyPass s p else applyFail s p)
          p.sponsor procA with
        proposals :=
          (returnDeposit
            (if standardDidPass s p = true then applyPass s p else applyFail s p)
            p.sponsor procA).proposals.set pid
            { p with processed := true, didPass := standardDidPass s p } } := by
  unfold processProposal
  rw [hpid]
  dsimp only
  rw [hp]
  dsimp only
  rw [if_neg (by simp [hwl]), if_neg (by omega), if_neg (by simp [hproc])]

end ProcessBalanceLemmas

section PropAtLemmas

theorem propAt_set_of_eq (s s' : State) (pid : Nat) (p q : Proposal)
    (hps : s'.proposals = s.proposals.set pid q) (hp : s.propAt pid = some p) :
    s'.propAt pid = some q := by
  unfold State.propAt at hp ⊢
  have hlt : pid < s.proposals.length := (List.get?_eq_some.mp hp).1
  rw [hps]
  simp [List.get?_eq_getElem?, List.getElem?_set_self, hlt]

theorem propAt_set_of_ne (s s' : State) (pid j : Nat) (q : Proposal)
    (hps : s'.proposals = s.proposals.set pid q) (hj : j ≠ pid) :
    s'.propAt j = s.propAt j := by
  unfold State.propAt
  rw [hps]
  simp [List.get?_eq_getElem?, List.getElem?_set_ne (by omega : pid ≠ j)]

end PropAtLemmas

section ConcreteStates

/-- The deployment configuration of the test suite: deposit token 1, proposal
deposit 10, processing reward 1, dilution bound 3, 35 voting and 35 grace
periods, whitelist capacity 10, guild-bank capacity 5. -/
def cfg0 : Config :=
  { depositToken := 1, proposalDeposit := 10, processingReward := 1, dilutionBound := 3,
    votingPeriods := 35, gracePeriods := 35, maxWhitelist := 10, maxGuildBank := 5 }

/-- A small concrete DAO state: member 100 holds 2 shares and 1 loot out of
3 total shares and 1 total loot; GUILD holds 100 of token 1 and 50 of
token 2. -/
def stC1 : State :=
  { cfg := cfg0
    approvedTokens := [1, 2]
    tokenWhitelist := fun t => decide (t = 1 ∨ t = 2)
    userTokenBalances := fun a t =>
      if a = GUILD ∧ t = 1 then 100 else if a = GUILD ∧ t = 2 then 50 else 0
    totalBalance := fun t => if t = 1 then 100 else if t = 2 then 50 else 0
    members := fun a => if a = 100 then some { shares := 2, loot := 1 } else none
    totalShares := 3
    totalLoot := 1
    totalGuildBankTokens := 2
    proposals := []
    proposalQueue := [] }

/-- Like `stC1` but member 100 holds 1 share and 0 loot. -/
def stC1x : State :=
  { stC1 with
    members := fun a => if a = 100 then some { shares := 1, loot := 0 } else none
    totalShares := 1
    totalLoot := 0 }

end ConcreteStates

/-- C1 (amended): a member holding at least `sharesToBurn` shares and at least
`lootToBurn` loot (with a positive stake) can ragequit; the burn removes
exactly those amounts from the member record and the global totals, and every
approved token pays the member exactly
floor(guildBalance * (sharesToBurn + lootToBurn) / (totalShares + totalLoot)),
the remainder staying in GUILD. -/
theorem C1_ragequit_proportional (s : State) (memberA : Address) (m : Member)
    (sb lb : Nat)
    (hm : s.members memberA = some m)
    (hmg : memberA ≠ GUILD)
    (hstake : 0 < m.shares + m.loot)
    (hsb : sb ≤ m.shares) (hlb : lb ≤ m.loot)
    (hts : m.shares ≤ s.totalShares) (htl : m.loot ≤ s.totalLoot)
    (hnd : s.approvedTokens.Nodup) :
    ∃ s', ragequit s memberA sb lb = .ok s' ∧
      s'.totalShares + sb = s.totalShares ∧
      s'.totalLoot + lb = s.totalLoot ∧
      s'.members memberA = some { shares := m.shares - sb, loot := m.loot - lb } ∧
      ∀ tk ∈ s.approvedTokens,
        s'.userTokenBalances memberA tk =
          s.userTokenBalances memberA tk +
            s.userTokenBalances GUILD tk * (sb + lb) / (s.totalShares + s.totalLoot) ∧
        s'.userTokenBalances GUILD tk +
            s.userTokenBalances GUILD tk * (sb + lb) / (s.totalShares + s.totalLoot) =
          s.userTokenBalances GUILD tk := by
  have hnz : ¬(m.shares = 0 ∧ m.loot = 0) := by omega
  refine ⟨_, ragequit_ok_spec s memberA m sb lb hm hnz hsb hlb, ?_, ?_, ?_, ?_⟩
  · rw [ragequitLoop_shares]
    show s.totalShares - sb + sb = s.totalShares
    omega
  · rw [ragequitLoop_totalLoot]
    show s.totalLoot - lb + lb = s.totalLoot
    omega
  · rw [ragequitLoop_members]
    exact setMem_same _ _ _
  · intro tk htk
    obtain ⟨g1, g2⟩ := ragequitLoop_bal_mem memberA hmg (sb + lb)
      (s.totalShares + s.totalLoot) s.approvedTokens _ tk hnd htk
    refine ⟨g1, ?_⟩
    have hple : s.userTokenBalances GUILD tk * (sb + lb) / (s.totalShares + s.totalLoot) ≤
        s.userTokenBalances GUILD tk :=
      fairShare_le _ _ _ (by omega)
    rw [g2]
    exact Nat.sub_add_cancel hple

/-- C1 counterexample: the claim as stated only assumes the member holds at
least b = sharesToBurn + lootToBurn of combined weight.  Member 100 holds
weight 1 ≥ b = 0 + 1, yet ragequit(0, 1) is refused because the loot being
burned exceeds the loot held: the precondition is per-component, not on the
combined weight. -/
theorem C1_counterexample :
    (stC1x.members 100).map (fun m => m.shares + m.loot) = some 1 ∧
    (0 + 1 : Nat) ≤ 1 ∧
    ragequit stC1x 100 0 1 = .error .insufficientLoot :=
  ⟨rfl, by decide, rfl⟩

/-- C1 witness: at `stC1`, member 100 burns 1 share and 1 loot out of total
weight 4 and receives floor(100·2/4) = 50 of token 1 and floor(50·2/4) = 25
of token 2. -/
theorem C1_witness :
    ∃ s', ragequit stC1 100 1 1 = .ok s' ∧
      s'.totalShares + 1 = stC1.totalShares ∧
      s'.totalLoot + 1 = stC1.totalLoot ∧
      s'.members 100 = some { shares := 2 - 1, loot := 1 - 1 } ∧
      ∀ tk ∈ stC1.approvedTokens,
        s'.userTokenBalances 100 tk =
          stC1.userTokenBalances 100 tk +
            stC1.userTokenBalances GUILD tk * (1 + 1) / (stC1.totalShares + stC1.totalLoot) ∧
        s'.userTokenBalances GUILD tk +
            stC1.userTokenBalances GUILD tk * (1 + 1) / (stC1.totalShares + stC1.totalLoot) =
          stC1.userTokenBalances GUILD tk :=
  C1_ragequit_proportional stC1 100 { shares := 2, loot := 1 } 1 1 rfl (by decide)
    (by decide) (by decide) (by decide) (by decide) (by decide) (by decide)

section CapacityStates

/-- An unsponsored tribute proposal offering 5 of token 6 (a token GUILD does
not hold). -/
def pCap : Proposal :=
  { applicant := 8, proposer := 9, sponsor := 0
    sharesRequested := 1, lootRequested := 0
    tributeOffered := 5, tributeToken := 6
    paymentRequested := 0, paymentToken := 1
    startingPeriod := 0, yesVotes := 0, noVotes := 0
    maxTotalSharesAndLootAtYesVote := 0
    sponsored := false, processed := false, didPass := false
    flagWhitelist := false, votesByMember := [] }

/-- A DAO state at guild-bank-token capacity: tokens 1..6 whitelisted, GUILD
holds tokens 1..5 (the full capacity G = 5), and `pCap` is pending. -/
def stCap : State :=
  { cfg := cfg0
    approvedTokens := [1, 2, 3, 4, 5, 6]
    tokenWhitelist := fun t => decide (1 ≤ t ∧ t ≤ 6)
    userTokenBalances := fun a t => if a = GUILD ∧ 1 ≤ t ∧ t ≤ 5 then 20 else 0
    totalBalance := fun t => if 1 ≤ t ∧ t ≤ 5 then 20 else 0
    members := fun a => if a = 100 then some { shares := 1, loot := 0 } else none
    totalShares := 1
    totalLoot := 0
    totalGuildBankTokens := 5
    proposals := [pCap]
    proposalQueue := [] }

/-- The proposal `pCap` once sponsored by member 100 and voted yes. -/
def pCapQ : Proposal :=
  { pCap with
    sponsor := 100, sponsored := true, startingPeriod := 1
    yesVotes := 1, maxTotalSharesAndLootAtYesVote := 1 }

/-- The at-capacity state with `pCapQ` sponsored and queued; ESCROW holds the
tribute (5 of token 6) and the deposit (10 of token 1). -/
def stCapP : State :=
  { stCap with
    userTokenBalances := fun a t =>
      if a = GUILD ∧ 1 ≤ t ∧ t ≤ 5 then 20
      else if a = ESCROW ∧ t = 6 then 5
      else if a = ESCROW ∧ t = 1 then 10 else 0
    totalBalance := fun t =>
      if t = 1 then 30 else if 2 ≤ t ∧ t ≤ 5 then 20 else if t = 6 then 5 else 0
    proposals := [pCapQ]
    proposalQueue := [0] }

/-- A pending whitelist-kind proposal for token 66. -/
def pWl : Proposal :=
  { applicant := 0, proposer := 9, sponsor := 0
    sharesRequested := 0, lootRequested := 0
    tributeOffered := 0, tributeToken := 66
    paymentRequested := 0, paymentToken := 0
    startingPeriod := 0, yesVotes := 0, noVotes := 0
    maxTotalSharesAndLootAtYesVote := 0
    sponsored := false, processed := false, didPass := false
    flagWhitelist := true, votesByMember := [] }

/-- A DAO state at whitelist capacity W = 10 with `pWl` pending. -/
def stCapW : State :=
  { cfg := cfg0
    approvedTokens := [1, 2, 3, 4, 5, 6, 7, 8, 9, 10]
    tokenWhitelist := fun t => decide (1 ≤ t ∧ t ≤ 10)
    userTokenBalances := fun _ _ => 0
    totalBalance := fun _ => 0
    members := fun a => if a = 100 then some { shares := 1, loot := 0 } else none
    totalShares := 1
    totalLoot := 0
    totalGuildBankTokens := 0
    proposals := [pWl]
    proposalQueue := [] }

end CapacityStates

/-- C4: a proposal with zero tribute never trips the guild-bank-token
capacity check at submission — even when the tribute token is not held by
GUILD and the diversity counter is at G — while the same terms with positive
tribute fail with CapacityExceeded(guildBankTokens). -/
theorem C4_zero_tribute_bypass (s : State) (proposer applicant sh lo : Nat) (tt : Token)
    (pr : Nat) (pt : Token)
    (hwl : s.tokenWhitelist tt = true)
    (hgb : s.userTokenBalances GUILD tt = 0)
    (hcap : s.cfg.maxGuildBank ≤ s.totalGuildBankTokens) :
    (∃ r, submitProposal s proposer applicant sh lo 0 tt pr pt = .ok r) ∧
    ∀ tr, 0 < tr →
      submitProposal s proposer applicant sh lo tr tt pr pt =
        .error .capacityExceededGuildBank := by
  constructor
  · unfold submitProposal
    rw [if_neg (by simp), if_neg (by simp)]
    exact ⟨_, rfl⟩
  · intro tr htr
    unfold submitProposal
    rw [if_neg (by simp [hwl]), if_pos ⟨htr, hgb, hcap⟩]

/-- C4 witness: at `stCap` (diversity counter = G = 5, token 6 whitelisted but
not held by GUILD) submitting with tribute 0 succeeds and with tribute 5
fails with the guild-bank capacity error. -/
theorem C4_witness :
    (∃ r, submitProposal stCap 9 8 1 0 0 6 0 1 = .ok r) ∧
    ∀ tr, 0 < tr →
      submitProposal stCap 9 8 1 0 tr 6 0 1 = .error .capacityExceededGuildBank :=
  C4_zero_tribute_bypass stCap 9 8 1 0 6 0 1 rfl rfl (by decide)

/-- C2 (amended): at submission and sponsorship, an operation that would push
the guild-bank-token diversity counter past G or the whitelist past W is
refused with the corresponding CapacityExceeded error (and, the operations
being error-returning, leaves the state unchanged); at processing time the
at-capacity proposal instead resolves as failed without touching the
counter; consequently in every reachable state the diversity counter stays
within G and the whitelist within W. -/
theorem C2_capacity_invariant :
    (∀ (s : State) (proposer applicant sh lo tr : Nat) (tt : Token) (pr : Nat) (pt : Token),
      0 < tr → s.tokenWhitelist tt = true →
      s.userTokenBalances GUILD tt = 0 → s.cfg.maxGuildBank ≤ s.totalGuildBankTokens →
      submitProposal s proposer applicant sh lo tr tt pr pt =
        .error .capacityExceededGuildBank) ∧
    (∀ (s : State) (proposer : Address) (tk : Token), s.tokenWhitelist tk = false →
      s.cfg.maxWhitelist ≤ s.approvedTokens.length →
      submitWhitelistProposal s proposer tk = .error .capacityExceededWhitelist) ∧
    (∀ (s : State) (a : Address) (now pid : Nat) (p : Proposal),
      s.isActiveMember a = true → s.propAt pid = some p →
      p.sponsored = false → p.flagWhitelist = true →
      s.cfg.maxWhitelist ≤ s.approvedTokens.length →
      sponsorProposal s a now pid = .error .capacityExceededWhitelist) ∧
    (∀ (s : State) (a : Address) (now pid : Nat) (p : Proposal),
      s.isActiveMember a = true → s.propAt pid = some p →
      p.sponsored = false → p.flagWhitelist = false → 0 < p.tributeOffered →
      s.userTokenBalances GUILD p.tributeToken = 0 →
      s.cfg.maxGuildBank ≤ s.totalGuildBankTokens →
      sponsorProposal s a now pid = .error .capacityExceededGuildBank) ∧
    (∀ (s : State) (procA : Address) (now qi pid : Nat) (p : Proposal),
      s.proposalQueue.get? qi = some pid → s.propAt pid = some p →
      p.flagWhitelist = false →
      p.startingPeriod + s.cfg.votingPeriods + s.cfg.gracePeriods ≤ now →
      p.processed = false → 0 < p.tributeOffered →
      s.userTokenBalances GUILD p.tributeToken = 0 →
      s.cfg.maxGuildBank ≤ s.totalGuildBankTokens →
      ∃ s', processProposal s procA now qi = .ok s' ∧
        s'.totalGuildBankTokens = s.totalGuildBankTokens ∧
        (s'.propAt pid).map Proposal.didPass = some false) ∧
    (∀ (c : Config) (s0 s : State), CapacityInv c s0 → Reachable s0 s →
      s.totalGuildBankTokens ≤ c.maxGuildBank ∧
        s.approvedTokens.length ≤ c.maxWhitelist) := by
  refine ⟨?_, ?_, ?_, ?_, ?_, ?_⟩
  · intro s proposer applicant sh lo tr tt pr pt htr hwl hgb hcap
    unfold submitProposal
    rw [if_neg (by simp [hwl]), if_pos ⟨htr, hgb, hcap⟩]
  · intro s proposer tk hwl hcap
    unfold submitWhitelistProposal
    rw [if_neg (by simp [hwl]), if_pos hcap]
  · intro s a now pid p hmem hp hns hfw hcap
    unfold sponsorProposal
    rw [if_neg (by simp [hmem]), hp]
    dsimp only
    rw [if_neg (by simp [hns]), if_pos ⟨hfw, hcap⟩]
  · intro s a now pid p hmem hp hns hfw htr hgb hcap
    unfold sponsorProposal
    rw [if_neg (by simp [hmem]), hp]
    dsimp only
    rw [if_neg (by simp [hns]), if_neg (by simp [hfw]), if_pos ⟨htr, hgb, hcap⟩]
  · intro s procA now qi pid p hpid hp hfw htime hproc htr hgb hcap
    have hpass : standardDidPass s p = false := by
      unfold standardDidPass
      simp [htr, hgb, hcap]
    refine ⟨_, processProposal_ok_spec s procA now qi pid p hpid hp hfw htime hproc, ?_, ?_⟩
    · simp [hpass]
    · have hprops :
          ({ returnDeposit
              (if standardDidPass s p = true then applyPass s p else applyFail s p)
              p.sponsor procA with
            proposals :=
              (returnDeposit
                (if standardDidPass s p = true then applyPass s p else applyFail s p)
                p.sponsor procA).proposals.set pid
                { p with processed := true, didPass := standardDidPass s p } } : State).proposals
            = s.proposals.set pid
                { p with processed := true, didPass := standardDidPass s p } := by
        simp [hpass]
      rw [propAt_set_of_eq s _ pid p _ hprops hp]
      simp [hpass]
  · intro c s0 s hinv hreach
    have h := reachable_capacity c s0 s hreach hinv
    exact ⟨h.2.1, h.2.2⟩

/-- C2 counterexample: at guild-bank capacity, processing a sponsored tribute
proposal for a new token does not fail with CapacityExceeded — the call
succeeds and mutates state (the proposal becomes processed and failed, the
tribute is refunded), contradicting the claim that every such operation
fails and leaves state unchanged. -/
theorem C2_counterexample :
    stCapP.cfg.maxGuildBank ≤ stCapP.totalGuildBankTokens ∧
    ((stCapP.propAt 0).map (fun p => decide (0 < p.tributeOffered))) = some true ∧
    ((stCapP.propAt 0).map (fun p => stCapP.userTokenBalances GUILD p.tributeToken)) =
      some 0 ∧
    (processProposal stCapP 55 71 0).toOption.isSome = true ∧
    ((processProposal stCapP 55 71 0).toOption.map
      (fun s => (s.propAt 0).map (fun p => (p.processed, p.didPass)))) =
      some (some (true, false)) := by
  exact ⟨by decide, rfl, rfl, rfl, rfl⟩

/-- C2 witness: all five refusal/processing conjuncts instantiated at the
concrete capacity states, plus the invariant at the base state itself. -/
theorem C2_witness :
    submitProposal stCap 9 8 1 0 5 6 0 1 = .error .capacityExceededGuildBank ∧
    submitWhitelistProposal stCapW 9 66 = .error .capacityExceededWhitelist ∧
    sponsorProposal stCapW 100 0 0 = .error .capacityExceededWhitelist ∧
    sponsorProposal stCap 100 0 0 = .error .capacityExceededGuildBank ∧
    (∃ s', processProposal stCapP 55 71 0 = .ok s' ∧
      s'.totalGuildBankTokens = stCapP.totalGuildBankTokens ∧
      (s'.propAt 0).map Proposal.didPass = some false) ∧
    (stCap.totalGuildBankTokens ≤ cfg0.maxGuildBank ∧
      stCap.approvedTokens.length ≤ cfg0.maxWhitelist) :=
  ⟨C2_capacity_invariant.1 stCap 9 8 1 0 5 6 0 1 (by decide) rfl rfl (by decide),
    C2_capacity_invariant.2.1 stCapW 9 66 (by decide) (by decide),
    C2_capacity_invariant.2.2.1 stCapW 100 0 0 pWl rfl rfl rfl rfl (by decide),
    C2_capacity_invariant.2.2.2.1 stCap 100 0 0 pCap rfl rfl rfl rfl (by decide) rfl
      (by decide),
    C2_capacity_invariant.2.2.2.2.1 stCapP 55 71 0 0 pCapQ rfl rfl rfl (by decide) rfl
      (by decide) rfl (by decide),
    C2_capacity_invariant.2.2.2.2.2 cfg0 stCap stCap ⟨rfl, by decide, by decide⟩
      Relation.ReflTransGen.refl⟩

/-- The collectTokens fixture: member 100, tokens 1 and 2 whitelisted, GUILD
holding 69 of token 1 and none of token 2 (the test suite scenario). -/
def stC3 : State :=
  { cfg := cfg0
    approvedTokens := [1, 2]
    tokenWhitelist := fun t => decide (t = 1 ∨ t = 2)
    userTokenBalances := fun a t => if a = GUILD ∧ t = 1 then 69 else 0
    totalBalance := fun t => if t = 1 then 69 else 0
    members := fun a => if a = 100 then some { shares := 1, loot := 0 } else none
    totalShares := 1
    totalLoot := 0
    totalGuildBankTokens := 1
    proposals := []
    proposalQueue := [] }

/-- C3 (amended): for a member caller, collectTokens succeeds exactly when
the external excess over the tracked total is strictly positive, the token is
whitelisted AND the guild bank already holds a non-zero balance of the token;
on success the entire excess is credited to GUILD.  A zero excess is refused
with NoBalanceToCollect, a non-whitelisted token with NotWhitelisted, and a
whitelisted token with zero guild-bank balance is refused as well (the
additional guard the test suite pins down). -/
theorem C3_collect_excess (s : State) (caller : Address) (token : Token) (ext : Nat)
    (hmem : s.isActiveMember caller = true) :
    (0 < ext - s.totalBalance token → s.tokenWhitelist token = true →
      0 < s.userTokenBalances GUILD token →
      collectTokens s caller token ext =
        .ok (s.addToBalance GUILD token (ext - s.totalBalance token)) ∧
      (s.addToBalance GUILD token (ext - s.totalBalance token)).userTokenBalances
          GUILD token =
        s.userTokenBalances GUILD token + (ext - s.totalBalance token)) ∧
    (ext - s.totalBalance token = 0 →
      collectTokens s caller token ext = .error .noBalanceToCollect) ∧
    (0 < ext - s.totalBalance token → s.tokenWhitelist token = false →
      collectTokens s caller token ext = .error .notWhitelisted) ∧
    (0 < ext - s.totalBalance token → s.tokenWhitelist token = true →
      s.userTokenBalances GUILD token = 0 →
      collectTokens s caller token ext = .error .noGuildBankBalance) := by
  refine ⟨?_, ?_, ?_, ?_⟩
  · intro hexc hwl hguild
    constructor
    · simp only [collectTokens]
      rw [if_neg (by simp [hmem]), if_neg (by omega), if_neg (by simp [hwl]),
        if_neg (by omega)]
    · exact addToBalance_bal_same s GUILD token _
  · intro hexc
    simp only [collectTokens]
    rw [if_neg (by simp [hmem]), if_pos hexc]
  · intro hexc hwl
    simp only [collectTokens]
    rw [if_neg (by simp [hmem]), if_neg (by omega), if_pos hwl]
  · intro hexc hwl hguild
    simp only [collectTokens]
    rw [if_neg (by simp [hmem]), if_neg (by omega), if_neg (by simp [hwl]), if_pos hguild]

/-- C3 counterexample: token 2 is whitelisted, the caller is a member, and
the external excess is 100 > 0 — the claim says the collection must succeed —
yet collectTokens is refused, because GUILD holds none of token 2 (the
guild-bank-balance guard the claim omits; this is exactly the
"guild bank balance for token to collect is zero" test). -/
theorem C3_counterexample :
    stC3.isActiveMember 100 = true ∧
    stC3.tokenWhitelist 2 = true ∧
    (0 : Nat) < 100 - stC3.totalBalance 2 ∧
    collectTokens stC3 100 2 100 = .error .noGuildBankBalance :=
  ⟨rfl, rfl, by decide, rfl⟩

/-- C3 witness: collecting token 1 with external balance 180 credits the
excess 111 to GUILD; a non-whitelisted token and a zero excess are refused
with the claimed errors. -/
theorem C3_witness :
    (collectTokens stC3 100 1 180 =
        .ok (stC3.addToBalance GUILD 1 (180 - stC3.totalBalance 1)) ∧
      (stC3.addToBalance GUILD 1 (180 - stC3.totalBalance 1)).userTokenBalances GUILD 1 =
        stC3.userTokenBalances GUILD 1 + (180 - stC3.totalBalance 1)) ∧
    collectTokens stC3 100 3 50 = .error .notWhitelisted ∧
    collectTokens stC3 100 2 0 = .error .noBalanceToCollect :=
  ⟨(C3_collect_excess stC3 100 1 180 rfl).1 (by decide) rfl (by decide),
    (C3_collect_excess stC3 100 3 50 rfl).2.2.1 (by decide) rfl,
    (C3_collect_excess stC3 100 2 0 rfl).2.1 (by decide)⟩

section ProcessedStateLemmas

theorem processedMid_cfg (s : State) (p : Proposal) :
    (if standardDidPass s p = true then applyPass s p else applyFail s p).cfg = s.cfg := by
  split <;> simp

theorem processedMid_bal_party (s : State) (p : Proposal) (x : Address) (tk : Token)
    (h1 : x ≠ GUILD) (h2 : x ≠ ESCROW) (h3 : x ≠ p.applicant) (h4 : x ≠ p.proposer) :
    (if standardDidPass s p = true then
        applyPass s p else applyFail s p).userTokenBalances x tk =
      s.userTokenBalances x tk := by
  split
  · exact applyPass_bal_other s p x tk h1 h2 h3
  · exact applyFail_bal_other s p x tk h2 h4

theorem processedMid_bal_escrow (s : State) (p : Proposal) (tk : Token)
    (htt : tk ≠ p.tributeToken) (hap : p.applicant ≠ ESCROW) (hpp : p.proposer ≠ ESCROW) :
    (if standardDidPass s p = true then
        applyPass s p else applyFail s p).userTokenBalances ESCROW tk =
      s.userTokenBalances ESCROW tk := by
  split
  · exact applyPass_bal_escrow s p tk htt hap
  · exact applyFail_bal_escrow s p tk htt hpp

end ProcessedStateLemmas

/-- C5: processing a (standard) proposal repays the sponsor the deposit minus
the processing reward and pays the processor the reward, both out of ESCROW
in the deposit token, whatever the outcome; when the sponsor is also the
processor the two payments combine to the whole deposit.  The party
hypotheses keep the deposit flows separate from the tribute/payment flows of
the same processing. -/
theorem C5_deposit_repayment (s : State) (procA : Address) (now qi pid : Nat)
    (p : Proposal)
    (hpid : s.proposalQueue.get? qi = some pid)
    (hp : s.propAt pid = some p)
    (hwl : p.flagWhitelist = false)
    (htime : p.startingPeriod + s.cfg.votingPeriods + s.cfg.gracePeriods ≤ now)
    (hproc : p.processed = false)
    (hsp1 : p.sponsor ≠ GUILD) (hsp2 : p.sponsor ≠ ESCROW)
    (hsp3 : p.sponsor ≠ p.applicant) (hsp4 : p.sponsor ≠ p.proposer)
    (hpr1 : procA ≠ GUILD) (hpr2 : procA ≠ ESCROW)
    (hpr3 : procA ≠ p.applicant) (hpr4 : procA ≠ p.proposer)
    (hap : p.applicant ≠ ESCROW) (hpp : p.proposer ≠ ESCROW)
    (htt : p.tributeToken ≠ s.cfg.depositToken)
    (hesc : s.cfg.proposalDeposit ≤ s.userTokenBalances ESCROW s.cfg.depositToken)
    (hrd : s.cfg.processingReward ≤ s.cfg.proposalDeposit) :
    ∃ s', processProposal s procA now qi = .ok s' ∧
      (p.sponsor ≠ procA →
        s'.userTokenBalances p.sponsor s.cfg.depositToken =
          s.userTokenBalances p.sponsor s.cfg.depositToken +
            (s.cfg.proposalDeposit - s.cfg.processingReward) ∧
        s'.userTokenBalances procA s.cfg.depositToken =
          s.userTokenBalances procA s.cfg.depositToken + s.cfg.processingReward) ∧
      (p.sponsor = procA →
        s'.userTokenBalances procA s.cfg.depositToken =
          s.userTokenBalances procA s.cfg.depositToken + s.cfg.proposalDeposit) ∧
      s'.userTokenBalances ESCROW s.cfg.depositToken + s.cfg.proposalDeposit =
        s.userTokenBalances ESCROW s.cfg.depositToken := by
  refine ⟨_, processProposal_ok_spec s procA now qi pid p hpid hp hwl htime hproc, ?_, ?_, ?_⟩
  · intro hne
    constructor
    · have h := returnDeposit_bal_sponsor
        (if standardDidPass s p = true then applyPass s p else applyFail s p)
        p.sponsor procA hsp2 hne
      rw [processedMid_cfg] at h
      rw [processedMid_bal_party s p p.sponsor _ hsp1 hsp2 hsp3 hsp4] at h
      exact h
    · have h := returnDeposit_bal_processor
        (if standardDidPass s p = true then applyPass s p else applyFail s p)
        p.sponsor procA hpr2 hne
      rw [processedMid_cfg] at h
      rw [processedMid_bal_party s p procA _ hpr1 hpr2 hpr3 hpr4] at h
      exact h
  · intro heq
    rw [← heq]
    have h := returnDeposit_bal_same_acct
      (if standardDidPass s p = true then applyPass s p else applyFail s p)
      p.sponsor hsp2 (by rw [processedMid_cfg]; exact hrd)
    rw [processedMid_cfg] at h
    rw [processedMid_bal_party s p p.sponsor _ hsp1 hsp2 hsp3 hsp4] at h
    exact h
  · have h := returnDeposit_bal_escrow
      (if standardDidPass s p = true then applyPass s p else applyFail s p)
      p.sponsor procA hsp2 hpr2 ?_ (by rw [processedMid_cfg]; exact hrd)
    · rw [processedMid_cfg] at h
      rw [processedMid_bal_escrow s p _ (fun hc => htt hc.symm) hap hpp] at h
      exact h
    · rw [processedMid_cfg, processedMid_bal_escrow s p _ (fun hc => htt hc.symm) hap hpp]
      exact hesc

/-- The deposit-repayment fixture: a sponsored, yes-voted tribute proposal
(tribute 5 of token 2, sponsor 100) with the deposit (10 of token 1) and the
tribute held in ESCROW. -/
def pC5 : Proposal :=
  { applicant := 8, proposer := 9, sponsor := 100
    sharesRequested := 1, lootRequested := 0
    tributeOffered := 5, tributeToken := 2
    paymentRequested := 0, paymentToken := 1
    startingPeriod := 1, yesVotes := 1, noVotes := 0
    maxTotalSharesAndLootAtYesVote := 1
    sponsored := true, processed := false, didPass := false
    flagWhitelist := false, votesByMember := [(100, 1)] }

def stC5 : State :=
  { cfg := cfg0
    approvedTokens := [1, 2]
    tokenWhitelist := fun t => decide (t = 1 ∨ t = 2)
    userTokenBalances := fun a t =>
      if a = ESCROW ∧ t = 1 then 10 else if a = ESCROW ∧ t = 2 then 5 else 0
    totalBalance := fun t => if t = 1 then 10 else if t = 2 then 5 else 0
    members := fun a => if a = 100 then some { shares := 1, loot := 0 } else none
    totalShares := 1
    totalLoot := 0
    totalGuildBankTokens := 0
    proposals := [pC5]
    proposalQueue := [0] }

/-- C5 witness: processing `pC5` at `stC5` with processor 55 pays the sponsor
100 the deposit net of the reward (9) and the processor the reward (1), both
debited from ESCROW (10 in total). -/
theorem C5_witness :
    ∃ s', processProposal stC5 55 71 0 = .ok s' ∧
      s'.userTokenBalances 100 1 = stC5.userTokenBalances 100 1 + 9 ∧
      s'.userTokenBalances 55 1 = stC5.userTokenBalances 55 1 + 1 ∧
      s'.userTokenBalances ESCROW 1 + 10 = stC5.userTokenBalances ESCROW 1 := by
  obtain ⟨s', hok, hA, hB, hC⟩ :=
    C5_deposit_repayment stC5 55 71 0 0 pC5 rfl rfl rfl (by decide) rfl
      (by decide) (by decide) (by decide) (by decide)
      (by decide) (by decide) (by decide) (by decide)
      (by decide) (by decide) (by decide) (by decide) (by decide)
  exact ⟨s', hok, (hA (by decide)).1, (hA (by decide)).2, hC⟩

/-- C6: a successful sponsorship assigns
startingPeriod = max(currentPeriod, lastQueuedStartingPeriod) + 1 and appends
the proposal to the queue; consequently the queued starting periods, in
sponsorship order, stay strictly increasing. -/
theorem C6_starting_period_sequencing (s : State) (a : Address) (now pid : Nat)
    (s' : State) (h : sponsorProposal s a now pid = .ok s')
    (hnq : pid ∉ s.proposalQueue) :
    (s'.propAt pid).map Proposal.startingPeriod =
      some (max now s.lastQueuedStartingPeriod + 1) ∧
    s'.proposalQueue = s.proposalQueue ++ [pid] ∧
    queuePeriods s' = queuePeriods s ++ [max now s.lastQueuedStartingPeriod + 1] ∧
    (List.Chain' (· < ·) (queuePeriods s) → List.Chain' (· < ·) (queuePeriods s')) := by
  obtain ⟨p, hp, hns, hprops, hqueue⟩ := sponsorProposal_ok_inv s a now pid s' h
  have hat : s'.propAt pid = some
      { p with sponsored := true, sponsor := a
               startingPeriod := max now s.lastQueuedStartingPeriod + 1 } :=
    propAt_set_of_eq s s' pid p _ hprops hp
  have hqp : queuePeriods s' = queuePeriods s ++ [max now s.lastQueuedStartingPeriod + 1] := by
    unfold queuePeriods
    rw [hqueue, List.map_append]
    congr 1
    · refine List.map_congr_left ?_
      intro x hx
      have hxne : x ≠ pid := fun he => hnq (he ▸ hx)
      unfold periodOf
      rw [propAt_set_of_ne s s' pid x _ hprops hxne]
    · simp only [List.map_cons, List.map_nil]
      unfold periodOf
      rw [hat]
  refine ⟨by rw [hat]; rfl, hqueue, hqp, ?_⟩
  intro hchain
  rw [hqp]
  refine List.Chain'.append hchain (List.chain'_singleton _) ?_
  intro x hx y hy
  have hy' : max now s.lastQueuedStartingPeriod + 1 = y := by
    simpa using hy
  have hx' : x = s.lastQueuedStartingPeriod := by
    rw [queuePeriods_getLast?] at hx
    rcases hget : s.proposalQueue.getLast? with _ | q
    · rw [hget] at hx
      simp at hx
    · rw [hget] at hx
      have hxq : periodOf s q = x := by simpa using hx
      rw [lastQueued_eq_periodOf s q hget]
      exact hxq.symm
  subst hy'
  subst hx'
  omega

/-- An unsponsored zero-tribute proposal used for the sequencing witness. -/
def pC6 : Proposal :=
  { applicant := 8, proposer := 9, sponsor := 0
    sharesRequested := 1, lootRequested := 0
    tributeOffered := 0, tributeToken := 1
    paymentRequested := 0, paymentToken := 1
    startingPeriod := 0, yesVotes := 0, noVotes := 0
    maxTotalSharesAndLootAtYesVote := 0
    sponsored := false, processed := false, didPass := false
    flagWhitelist := false, votesByMember := [] }

def stC6 : State :=
  { cfg := cfg0
    approvedTokens := [1, 2]
    tokenWhitelist := fun t => decide (t = 1 ∨ t = 2)
    userTokenBalances := fun _ _ => 0
    totalBalance := fun _ => 0
    members := fun a => if a = 100 then some { shares := 1, loot := 0 } else none
    totalShares := 1
    totalLoot := 0
    totalGuildBankTokens := 0
    proposals := [pC6]
    proposalQueue := [] }

/-- C6 witness: sponsoring the pending proposal of `stC6` at period 5 gives it
starting period max(5, 0) + 1 = 6 and a strictly increasing queue. -/
theorem C6_witness :
    ∃ s', sponsorProposal stC6 100 5 0 = .ok s' ∧
      (s'.propAt 0).map Proposal.startingPeriod = some 6 ∧
      s'.proposalQueue = [0] ∧
      List.Chain' (· < ·) (queuePeriods s') := by
  have H := C6_starting_period_sequencing stC6 100 5 0 _ rfl (by decide)
  refine ⟨_, rfl, ?_, ?_, ?_⟩
  · exact H.1
  · exact H.2.1
  · exact H.2.2.2 (by decide)

section ProcessedStateShape

theorem processedState_queue (s : State) (p : Proposal) (procA : Address) (pid : Nat) :
    ({ returnDeposit (if standardDidPass s p = true then applyPass s p else applyFail s p)
          p.sponsor procA with
        proposals :=
          (returnDeposit (if standardDidPass s p = true then applyPass s p else applyFail s p)
            p.sponsor procA).proposals.set pid
            { p with processed := true, didPass := standardDidPass s p } } : State).proposalQueue
      = s.proposalQueue := by
  show (returnDeposit (if standardDidPass s p = true then applyPass s p else applyFail s p)
      p.sponsor procA).proposalQueue = s.proposalQueue
  rw [returnDeposit_queue]
  split <;> simp

theorem processedState_cfg (s : State) (p : Proposal) (procA : Address) (pid : Nat) :
    ({ returnDeposit (if standardDidPass s p = true then applyPass s p else applyFail s p)
          p.sponsor procA with
        proposals :=
          (returnDeposit (if standardDidPass s p = true then applyPass s p else applyFail s p)
            p.sponsor procA).proposals.set pid
            { p with processed := true, didPass := standardDidPass s p } } : State).cfg
      = s.cfg := by
  show (returnDeposit (if standardDidPass s p = true then applyPass s p else applyFail s p)
      p.sponsor procA).cfg = s.cfg
  rw [returnDeposit_cfg]
  split <;> simp

theorem processedState_proposals (s : State) (p : Proposal) (procA : Address) (pid : Nat) :
    ({ returnDeposit (if standardDidPass s p = true then applyPass s p else applyFail s p)
          p.sponsor procA with
        proposals :=
          (returnDeposit (if standardDidPass s p = true then applyPass s p else applyFail s p)
            p.sponsor procA).proposals.set pid
            { p with processed := true, didPass := standardDidPass s p } } : State).proposals
      = s.proposals.set pid { p with processed := true, didPass := standardDidPass s p } := by
  show (returnDeposit (if standardDidPass s p = true then applyPass s p else applyFail s p)
      p.sponsor procA).proposals.set pid
      { p with processed := true, didPass := standardDidPass s p } =
    s.proposals.set pid { p with processed := true, didPass := standardDidPass s p }
  rw [returnDeposit_proposals]
  split <;> simp

end ProcessedStateShape

/-- C9: processing succeeds at most once per queue index — after a successful
processing the proposal is flagged processed and, with the clock not moving
backwards, any further processing call of the matching kind is refused with
AlreadyProcessed.  (Errors return no state, so the refused call changes
nothing.) -/
theorem C9_process_at_most_once :
    (∀ (s : State) (procA : Address) (now qi : Nat) (s' : State) (procA' : Address)
        (now' : Nat),
      processProposal s procA now qi = .ok s' → now ≤ now' →
      ((s'.proposalQueue.get? qi).bind (fun pid => s'.propAt pid)).map Proposal.processed =
        some true ∧
      processProposal s' procA' now' qi = .error .alreadyProcessed) ∧
    (∀ (s : State) (procA : Address) (now qi : Nat) (s' : State) (procA' : Address)
        (now' : Nat),
      processWhitelistProposal s procA now qi = .ok s' → now ≤ now' →
      ((s'.proposalQueue.get? qi).bind (fun pid => s'.propAt pid)).map Proposal.processed =
        some true ∧
      processWhitelistProposal s' procA' now' qi = .error .alreadyProcessed) := by
  constructor
  · intro s procA now qi s' procA' now' h hmono
    obtain ⟨pid, p, hpid, hp, hwl, htime, hproc, hseq⟩ :=
      processProposal_ok_inv s procA now qi s' h
    have hq : s'.proposalQueue = s.proposalQueue := by
      rw [hseq]
      exact processedState_queue s p procA pid
    have hcfg : s'.cfg = s.cfg := by
      rw [hseq]
      exact processedState_cfg s p procA pid
    have hprops : s'.proposals =
        s.proposals.set pid { p with processed := true, didPass := standardDidPass s p } := by
      rw [hseq]
      exact processedState_proposals s p procA pid
    have hat : s'.propAt pid =
        some { p with processed := true, didPass := standardDidPass s p } :=
      propAt_set_of_eq s s' pid p _ hprops hp
    constructor
    · rw [hq, hpid]
      show (s'.propAt pid).map Proposal.processed = some true
      rw [hat]
      rfl
    · unfold processProposal
      rw [hq, hpid]
      dsimp only
      rw [hat]
      dsimp only
      rw [if_neg (by simp [hwl]), if_neg ?_, if_pos rfl]
      show ¬(now' < p.startingPeriod + s'.cfg.votingPeriods + s'.cfg.gracePeriods)
      rw [hcfg]
      omega
  · intro s procA now qi s' procA' now' h hmono
    obtain ⟨pid, p, hpid, hp, hwl, htime, hproc, hprops, hq, hcfg⟩ :=
      processWhitelistProposal_ok_inv s procA now qi s' h
    have hat : s'.propAt pid =
        some { p with processed := true, didPass := whitelistDidPass s p } :=
      propAt_set_of_eq s s' pid p _ hprops hp
    constructor
    · rw [hq, hpid]
      show (s'.propAt pid).map Proposal.processed = some true
      rw [hat]
      rfl
    · unfold processWhitelistProposal
      rw [hq, hpid]
      dsimp only
      rw [hat]
      dsimp only
      rw [if_neg (by simp [hwl]), if_neg ?_, if_pos rfl]
      show ¬(now' < p.startingPeriod + s'.cfg.votingPeriods + s'.cfg.gracePeriods)
      rw [hcfg]
      omega

/-- C9 witness: the proposal of `stC5` processes once at period 71 and a
repeat call at period 72 is refused with AlreadyProcessed. -/
theorem C9_witness :
    ∃ s', processProposal stC5 55 71 0 = .ok s' ∧
      processProposal s' 56 72 0 = .error .alreadyProcessed := by
  have H := C9_process_at_most_once.1 stC5 55 71 0 _ 56 72 rfl (by decide)
  exact ⟨_, rfl, H.2⟩

/-- C7: with `useMax` every listed token is drained to zero regardless of the
amounts supplied (a repeated token simply drains whatever remained); without
`useMax`, any entry whose requested amount exceeds the balance remaining at
its position fails the whole call with InsufficientBalance. -/
theorem C7_withdraw_useMax :
    (∀ (s : State) (caller : Address) (tokens : List Token) (amounts : List Nat),
      tokens.length = amounts.length →
      ∃ s', withdrawBalances s caller tokens amounts true = .ok s' ∧
        ∀ tk ∈ tokens, s'.userTokenBalances caller tk = 0) ∧
    (∀ (s sm : State) (caller : Address) (tokens : List Token) (amounts : List Nat)
        (pre : List (Token × Nat)) (tk : Token) (amt : Nat) (post : List (Token × Nat)),
      tokens.length = amounts.length →
      tokens.zip amounts = pre ++ (tk, amt) :: post →
      withdrawLoop caller false s pre = .ok sm →
      sm.userTokenBalances caller tk < amt →
      withdrawBalances s caller tokens amounts false = .error .insufficientBalance) := by
  constructor
  · intro s caller tokens amounts hlen
    unfold withdrawBalances
    rw [if_neg (by omega)]
    obtain ⟨s', hs'⟩ := withdrawLoop_useMax_ok caller (tokens.zip amounts) s
    refine ⟨s', hs', ?_⟩
    intro tk htk
    refine withdrawLoop_useMax_zero caller (tokens.zip amounts) s s' hs' tk ?_
    rw [List.map_fst_zip tokens amounts (le_of_eq hlen)]
    exact htk
  · intro s sm caller tokens amounts pre tk amt post hlen hzip hpre hlt
    unfold withdrawBalances
    rw [if_neg (by omega), hzip, withdrawLoop_append_ok caller false pre _ s sm hpre,
      withdrawLoop_cons_false, if_pos hlt]

/-- The withdrawal fixture: account 100 holds internal balances of 40 in
token 1 and 7 in token 2. -/
def stC7 : State :=
  { cfg := cfg0
    approvedTokens := [1, 2]
    tokenWhitelist := fun t => decide (t = 1 ∨ t = 2)
    userTokenBalances := fun a t =>
      if a = 100 ∧ t = 1 then 40 else if a = 100 ∧ t = 2 then 7 else 0
    totalBalance := fun t => if t = 1 then 40 else if t = 2 then 7 else 0
    members := fun a => if a = 100 then some { shares := 1, loot := 0 } else none
    totalShares := 1
    totalLoot := 0
    totalGuildBankTokens := 2
    proposals := []
    proposalQueue := [] }

/-- C7 witness: a useMax withdrawal of tokens 1 and 2 with zero amounts
drains both balances; a plain withdrawal of 41 > 40 of token 1 is refused. -/
theorem C7_witness :
    (∃ s', withdrawBalances stC7 100 [1, 2] [0, 0] true = .ok s' ∧
      ∀ tk ∈ [1, 2], s'.userTokenBalances 100 tk = 0) ∧
    withdrawBalances stC7 100 [1] [41] false = .error .insufficientBalance :=
  ⟨C7_withdraw_useMax.1 stC7 100 [1, 2] [0, 0] rfl,
    C7_withdraw_useMax.2 stC7 stC7 100 [1] [41] [] 1 41 [] rfl rfl rfl (by decide)⟩

/-- C8: when the same token appears several times in one withdrawBalances
call, each occurrence is resolved, in list order, against the balance the
caller has left after the earlier occurrences: an occurrence within the
remainder proceeds (consuming it), one beyond the remainder fails the whole
call with InsufficientBalance. -/
theorem C8_repeat_token_sequential (s sm : State) (caller : Address)
    (tokens : List Token) (amounts : List Nat) (pre : List (Token × Nat))
    (tk : Token) (amt : Nat) (post : List (Token × Nat))
    (hlen : tokens.length = amounts.length)
    (hzip : tokens.zip amounts = pre ++ (tk, amt) :: post)
    (hpre : withdrawLoop caller false s pre = .ok sm) :
    (amt ≤ sm.userTokenBalances caller tk →
      withdrawBalances s caller tokens amounts false =
        withdrawLoop caller false (sm.subtractFromBalance caller tk amt) post) ∧
    (sm.userTokenBalances caller tk < amt →
      withdrawBalances s caller tokens amounts false = .error .insufficientBalance) := by
  constructor
  · intro hle
    unfold withdrawBalances
    rw [if_neg (by omega), hzip, withdrawLoop_append_ok caller false pre _ s sm hpre,
      withdrawLoop_cons_false, if_neg (by omega)]
  · intro hlt
    unfold withdrawBalances
    rw [if_neg (by omega), hzip, withdrawLoop_append_ok caller false pre _ s sm hpre,
      withdrawLoop_cons_false, if_pos hlt]

/-- C8 witness: withdrawing [30, 10] of token 1 twice in one call resolves
the second entry against the remaining 10 and proceeds; requesting 11 the
second time fails the whole call. -/
theorem C8_witness :
    withdrawBalances stC7 100 [1, 1] [30, 10] false =
      withdrawLoop 100 false
        ((stC7.subtractFromBalance 100 1 30).subtractFromBalance 100 1 10) [] ∧
    withdrawBalances stC7 100 [1, 1] [30, 11] false = .error .insufficientBalance :=
  ⟨(C8_repeat_token_sequential stC7 _ 100 [1, 1] [30, 10] [(1, 30)] 1 10 [] rfl rfl
      rfl).1 (by decide),
    (C8_repeat_token_sequential stC7 _ 100 [1, 1] [30, 11] [(1, 30)] 1 11 [] rfl rfl
      rfl).2 (by decide)⟩

section VoteLemmas

/-- Forward evaluation of a yes vote (choice 1). -/
theorem submitVote_yes_spec (s : State) (voter : Address) (now qi pid : Nat)
    (m : Member) (p : Proposal)
    (hm : s.members voter = some m) (hsh : m.shares ≠ 0)
    (hpid : s.proposalQueue.get? qi = some pid) (hp : s.propAt pid = some p)
    (h1 : p.startingPeriod ≤ now) (h2 : now < p.startingPeriod + s.cfg.votingPeriods)
    (hnv : (p.votesByMember.lookup voter).isSome = false) :
    submitVote s voter now qi 1 = .ok
      { s with
        proposals :=
          s.proposals.set pid
            { p with
              yesVotes := p.yesVotes + m.shares
              maxTotalSharesAndLootAtYesVote :=
                max p.maxTotalSharesAndLootAtYesVote (s.totalShares + s.totalLoot)
              votesByMember := (voter, 1) :: p.votesByMember } } := by
  unfold submitVote
  rw [hm]
  dsimp only
  rw [if_neg hsh, hpid]
  dsimp only
  rw [hp]
  dsimp only
  rw [if_neg (by omega), if_neg (by omega), if_neg (by omega), if_neg (by simp [hnv])]
  rfl

/-- Forward evaluation of a no vote (choice 2). -/
theorem submitVote_no_spec (s : State) (voter : Address) (now qi pid : Nat)
    (m : Member) (p : Proposal)
    (hm : s.members voter = some m) (hsh : m.shares ≠ 0)
    (hpid : s.proposalQueue.get? qi = some pid) (hp : s.propAt pid = some p)
    (h1 : p.startingPeriod ≤ now) (h2 : now < p.startingPeriod + s.cfg.votingPeriods)
    (hnv : (p.votesByMember.lookup voter).isSome = false) :
    submitVote s voter now qi 2 = .ok
      { s with
        proposals :=
          s.proposals.set pid
            { p with
              noVotes := p.noVotes + m.shares
              votesByMember := (voter, 2) :: p.votesByMember } } := by
  unfold submitVote
  rw [hm]
  dsimp only
  rw [if_neg hsh, hpid]
  dsimp only
  rw [hp]
  dsimp only
  rw [if_neg (by omega), if_neg (by omega), if_neg (by omega), if_neg (by simp [hnv])]
  rfl

end VoteLemmas

/-- C10 (amended): choice 1 is a yes vote adding the voter's shares to the
yes tally and choice 2 a no vote adding them to the no tally; the
vote-submission task maps a string to choice 1 exactly when its ASCII
lowercasing is "yes", to choice 2 exactly when it is "no", and rejects every
other input without calling submitVote. -/
theorem C10_vote_encoding (s : State) (voter : Address) (now qi pid : Nat)
    (m : Member) (p : Proposal)
    (hm : s.members voter = some m) (hsh : m.shares ≠ 0)
    (hpid : s.proposalQueue.get? qi = some pid) (hp : s.propAt pid = some p)
    (h1 : p.startingPeriod ≤ now) (h2 : now < p.startingPeriod + s.cfg.votingPeriods)
    (hnv : (p.votesByMember.lookup voter).isSome = false) :
    (∃ s1, submitVote s voter now qi 1 = .ok s1 ∧
      (s1.propAt pid).map Proposal.yesVotes = some (p.yesVotes + m.shares) ∧
      (s1.propAt pid).map Proposal.noVotes = some p.noVotes) ∧
    (∃ s2, submitVote s voter now qi 2 = .ok s2 ∧
      (s2.propAt pid).map Proposal.noVotes = some (p.noVotes + m.shares) ∧
      (s2.propAt pid).map Proposal.yesVotes = some p.yesVotes) ∧
    ∀ v : String,
      (voteStringToNumber v = some 1 ↔ lowerAscii v = "yes") ∧
      (voteStringToNumber v = some 2 ↔ lowerAscii v = "no") ∧
      (voteStringToNumber v = none ↔ ¬(lowerAscii v = "yes" ∨ lowerAscii v = "no")) := by
  refine ⟨?_, ?_, ?_⟩
  · refine ⟨_, submitVote_yes_spec s voter now qi pid m p hm hsh hpid hp h1 h2 hnv, ?_, ?_⟩
    · rw [propAt_set_of_eq s _ pid p _ rfl hp]
      rfl
    · rw [propAt_set_of_eq s _ pid p _ rfl hp]
      rfl
  · refine ⟨_, submitVote_no_spec s voter now qi pid m p hm hsh hpid hp h1 h2 hnv, ?_, ?_⟩
    · rw [propAt_set_of_eq s _ pid p _ rfl hp]
      rfl
    · rw [propAt_set_of_eq s _ pid p _ rfl hp]
      rfl
  · intro v
    by_cases h1v : lowerAscii v = "yes"
    · simp [voteStringToNumber, h1v, show ("yes" : String) ≠ "no" by decide]
    · by_cases h2v : lowerAscii v = "no"
      · simp [voteStringToNumber, h1v, h2v]
      · simp [voteStringToNumber, h1v, h2v]

/-- A sponsored proposal in its voting window, with no votes yet. -/
def pC10 : Proposal :=
  { applicant := 8, proposer := 9, sponsor := 100
    sharesRequested := 0, lootRequested := 0
    tributeOffered := 0, tributeToken := 1
    paymentRequested := 0, paymentToken := 1
    startingPeriod := 1, yesVotes := 0, noVotes := 0
    maxTotalSharesAndLootAtYesVote := 0
    sponsored := true, processed := false, didPass := false
    flagWhitelist := false, votesByMember := [] }

def stC10 : State :=
  { cfg := cfg0
    approvedTokens := [1, 2]
    tokenWhitelist := fun t => decide (t = 1 ∨ t = 2)
    userTokenBalances := fun _ _ => 0
    totalBalance := fun _ => 0
    members := fun a => if a = 100 then some { shares := 3, loot := 0 } else none
    totalShares := 3
    totalLoot := 0
    totalGuildBankTokens := 0
    proposals := [pC10]
    proposalQueue := [0] }

/-- C10 counterexample: the claim says the tooling maps only the strings
"yes" and "no" and rejects every other input, but the task lowercases its
input first: "YES" is neither "yes" nor "no" yet is mapped to choice 1. -/
theorem C10_counterexample :
    voteStringToNumber "YES" = some 1 ∧
    ("YES" : String) ≠ "yes" ∧ ("YES" : String) ≠ "no" :=
  ⟨by decide, by decide, by decide⟩

/-- C10 witness: voting 1 at `stC10` adds the voter's 3 shares to the yes
tally; the task maps "yes" to 1, "no" to 2 and rejects "maybe". -/
theorem C10_witness :
    (∃ s1, submitVote stC10 100 1 0 1 = .ok s1 ∧
      (s1.propAt 0).map Proposal.yesVotes = some (pC10.yesVotes + 3) ∧
      (s1.propAt 0).map Proposal.noVotes = some pC10.noVotes) ∧
    voteStringToNumber "yes" = some 1 ∧
    voteStringToNumber "no" = some 2 ∧
    voteStringToNumber "maybe" = none := by
  have H := C10_vote_encoding stC10 100 1 0 0 { shares := 3, loot := 0 } pC10 rfl
    (by decide) rfl rfl (by decide) (by decide) rfl
  exact ⟨H.1, (H.2.2 "yes").1.mpr (by decide), (H.2.2 "no").2.1.mpr (by decide),
    (H.2.2 "maybe").2.2.mpr (by decide)⟩

end Mollusk
